import Mathlib

/-!
# TreeSift — shallow embedding and verification

A shallow embedding of the analyzer pipeline of the `treesift` repository
(`src/core/TreeSift.ts`, `src/analyzers/*.ts`, `src/context/ComponentContext.ts`)
together with proofs about its behaviour.

The syntax tree consumed by the analyzers (produced by the external Babel
parser) is modelled by the inductive type `Node`; `Node.preorder` models
`ASTParser.traverseAST`, which fires Babel's `enter` callback for every node of
the tree in document (pre-)order.  Each analyzer is translated from its source
file as a pure function over the shared `ComponentContext` record, and the
pipeline `TreeSift.analyze` is the fixed fold of the analyzers over a fresh
context, exactly as in `src/core/TreeSift.ts`.

JSON-like runtime values (the result of the CVA analyzer's recursive value
reconstruction, and the values of class-name arguments) are modelled by
`JValue`.  The `configObject` field, which in the source holds
`JSON.stringify(value)`, is modelled by the reconstructed value itself:
`JSON.parse ∘ JSON.stringify` is the identity on the JSON-safe values that
`parseCvaConfig` produces, so the analyzer that reads the field back
(`StylingLibraryAnalyzer`) observes exactly this value.
-/

set_option maxHeartbeats 1000000

/-- Does `l` start with `pat`? -/
def listStartsWith : List Char → List Char → Bool
  | [], _ => true
  | _ :: _, [] => false
  | p :: ps, c :: cs => p == c && listStartsWith ps cs

/-- Does `pat` occur as a contiguous run inside `l`? -/
def listHasRun (pat : List Char) : List Char → Bool
  | [] => listStartsWith pat []
  | c :: cs => listStartsWith pat (c :: cs) || listHasRun pat cs

/-- `s.includes(pat)` — JavaScript substring containment. -/
def strContains (s pat : String) : Bool :=
  listHasRun pat.data s.data

/-- `/^[a-z]/.test(s)` — the first character is an ASCII lower-case letter. -/
def startsWithLower (s : String) : Bool :=
  match s.data with
  | [] => false
  | c :: _ => 'a' ≤ c && c ≤ 'z'

/-- `/^[A-Z]/.test(s)` — the first character is an ASCII upper-case letter. -/
def startsWithUpper (s : String) : Bool :=
  match s.data with
  | [] => false
  | c :: _ => 'A' ≤ c && c ≤ 'Z'

/-- JSON-like runtime values, as produced by the recursive value
reconstruction in `CVAAnalyzer.extractValue`. -/
inductive JValue where
  | str (s : String)
  | num (n : Int)
  | bool (b : Bool)
  | null
  | arr (xs : List JValue)
  | obj (fields : List (String × JValue))
deriving Repr

/-- JavaScript object-key assignment semantics for the association lists that
model object values: if the key is present its value is replaced in place,
otherwise the pair is appended. -/
def objInsert (fields : List (String × JValue)) (k : String) (v : JValue) :
    List (String × JValue) :=
  match fields with
  | [] => [(k, v)]
  | (k', v') :: rest =>
    if k' = k then (k', v) :: rest else (k', v') :: objInsert rest k v

/-- Key lookup in an object value's field list. -/
def objLookup (fields : List (String × JValue)) (k : String) : Option JValue :=
  match fields with
  | [] => none
  | (k', v') :: rest => if k' = k then some v' else objLookup rest k

/-- The syntax-tree shape consumed by the analyzers (§6 of the spec): the
Babel node kinds that the analyzers inspect.  `loc` is carried only on the
node kinds whose source location the analyzers read (`CallExpression` and
`JSXAttribute`).  String-literal children that no analyzer ever matches as
free-standing nodes (an import declaration's `source`, identifier nodes of
function names) are stored as plain strings. -/
inductive Node where
  | program (body : List Node)
  | importDecl (source : String) (specifiers : List Node)
  | importSpecifier (imported lcl : Node)
  | importDefaultSpecifier (lcl : Node)
  | importNamespaceSpecifier (lcl : Node)
  | exportNamedDecl (declaration : Option Node) (specifiers : List Node)
  | exportSpecifier (lcl exported : Node)
  | exportDefaultDecl (declaration : Node)
  | variableDeclaration (declarations : List Node)
  | variableDeclarator (id : Node) (init : Option Node)
  | functionDeclaration (id : Option String) (params : List Node) (body : List Node)
  | arrowFunctionExpression (params : List Node) (body : List Node)
  | functionExpression (id : Option String) (params : List Node) (body : List Node)
  | classDeclaration (id : Option String) (body : List Node)
  | callExpression (loc : Option (Nat × Nat)) (callee : Node) (args : List Node)
  | memberExpression (obj prop : Node)
  | identifier (name : String)
  | stringLiteral (value : String)
  | numericLiteral (value : Int)
  | booleanLiteral (value : Bool)
  | nullLiteral
  | templateLiteral (quasis : List String) (exprs : List Node)
  | objectExpression (properties : List Node)
  | objectProperty (key value : Node)
  | spreadElement (argument : Node)
  | arrayExpression (elements : List (Option Node))
  | conditionalExpression (test consequent alternate : Node)
  | binaryExpression (op : String) (left right : Node)
  | taggedTemplateExpression (tag : Node) (quasis : List String)
  | objectPattern (properties : List Node)
  | returnStatement (argument : Option Node)
  | expressionStatement (expression : Node)
  | jsxElement (name : Node) (attributes : List Node) (children : List Node)
  | jsxIdentifier (name : String)
  | jsxAttribute (loc : Option (Nat × Nat)) (name : Node) (value : Option Node)
  | jsxSpreadAttribute (argument : Node)
  | jsxExpressionContainer (expression : Node)
  | jsxText (value : String)
  | jsxFragment (children : List Node)
deriving Repr

/-- The child nodes of a node, in Babel's visiting order. -/
def Node.kids : Node → List Node
  | .program body => body
  | .importDecl _ specifiers => specifiers
  | .importSpecifier imported lcl => [imported, lcl]
  | .importDefaultSpecifier lcl => [lcl]
  | .importNamespaceSpecifier lcl => [lcl]
  | .exportNamedDecl declaration specifiers => declaration.toList ++ specifiers
  | .exportSpecifier lcl exported => [lcl, exported]
  | .exportDefaultDecl declaration => [declaration]
  | .variableDeclaration declarations => declarations
  | .variableDeclarator id init => id :: init.toList
  | .functionDeclaration _ params body => params ++ body
  | .arrowFunctionExpression params body => params ++ body
  | .functionExpression _ params body => params ++ body
  | .classDeclaration _ body => body
  | .callExpression _ callee args => callee :: args
  | .memberExpression obj prop => [obj, prop]
  | .identifier _ => []
  | .stringLiteral _ => []
  | .numericLiteral _ => []
  | .booleanLiteral _ => []
  | .nullLiteral => []
  | .templateLiteral _ exprs => exprs
  | .objectExpression properties => properties
  | .objectProperty key value => [key, value]
  | .spreadElement argument => [argument]
  | .arrayExpression elements => elements.filterMap id
  | .conditionalExpression test consequent alternate => [test, consequent, alternate]
  | .binaryExpression _ left right => [left, right]
  | .taggedTemplateExpression tag _ => [tag]
  | .objectPattern properties => properties
  | .returnStatement argument => argument.toList
  | .expressionStatement expression => [expression]
  | .jsxElement name attributes children => name :: (attributes ++ children)
  | .jsxIdentifier _ => []
  | .jsxAttribute _ name value => name :: value.toList
  | .jsxSpreadAttribute argument => [argument]
  | .jsxExpressionContainer expression => [expression]
  | .jsxText _ => []
  | .jsxFragment children => children

mutual

/-- `ASTParser.traverseAST`: the list of all nodes of the tree in Babel's
`enter` (pre-)order.  Every analyzer is a fold over this list. -/
def Node.preorder : Node → List Node
  | .program body => .program body :: Node.preorderList body
  | .importDecl source specifiers =>
      .importDecl source specifiers :: Node.preorderList specifiers
  | .importSpecifier imported lcl =>
      .importSpecifier imported lcl :: (Node.preorder imported ++ Node.preorder lcl)
  | .importDefaultSpecifier lcl => .importDefaultSpecifier lcl :: Node.preorder lcl
  | .importNamespaceSpecifier lcl => .importNamespaceSpecifier lcl :: Node.preorder lcl
  | .exportNamedDecl declaration specifiers =>
      .exportNamedDecl declaration specifiers ::
        (Node.preorderOpt declaration ++ Node.preorderList specifiers)
  | .exportSpecifier lcl exported =>
      .exportSpecifier lcl exported :: (Node.preorder lcl ++ Node.preorder exported)
  | .exportDefaultDecl declaration =>
      .exportDefaultDecl declaration :: Node.preorder declaration
  | .variableDeclaration declarations =>
      .variableDeclaration declarations :: Node.preorderList declarations
  | .variableDeclarator id init =>
      .variableDeclarator id init :: (Node.preorder id ++ Node.preorderOpt init)
  | .functionDeclaration id params body =>
      .functionDeclaration id params body ::
        (Node.preorderList params ++ Node.preorderList body)
  | .arrowFunctionExpression params body =>
      .arrowFunctionExpression params body ::
        (Node.preorderList params ++ Node.preorderList body)
  | .functionExpression id params body =>
      .functionExpression id params body ::
        (Node.preorderList params ++ Node.preorderList body)
  | .classDeclaration id body => .classDeclaration id body :: Node.preorderList body
  | .callExpression loc callee args =>
      .callExpression loc callee args :: (Node.preorder callee ++ Node.preorderList args)
  | .memberExpression obj prop =>
      .memberExpression obj prop :: (Node.preorder obj ++ Node.preorder prop)
  | .identifier name => [.identifier name]
  | .stringLiteral value => [.stringLiteral value]
  | .numericLiteral value => [.numericLiteral value]
  | .booleanLiteral value => [.booleanLiteral value]
  | .nullLiteral => [.nullLiteral]
  | .templateLiteral quasis exprs =>
      .templateLiteral quasis exprs :: Node.preorderList exprs
  | .objectExpression properties =>
      .objectExpression properties :: Node.preorderList properties
  | .objectProperty key value =>
      .objectProperty key value :: (Node.preorder key ++ Node.preorder value)
  | .spreadElement argument => .spreadElement argument :: Node.preorder argument
  | .arrayExpression elements =>
      .arrayExpression elements :: Node.preorderOptList elements
  | .conditionalExpression test consequent alternate =>
      .conditionalExpression test consequent alternate ::
        (Node.preorder test ++ (Node.preorder consequent ++ Node.preorder alternate))
  | .binaryExpression op left right =>
      .binaryExpression op left right :: (Node.preorder left ++ Node.preorder right)
  | .taggedTemplateExpression tag quasis =>
      .taggedTemplateExpression tag quasis :: Node.preorder tag
  | .objectPattern properties => .objectPattern properties :: Node.preorderList properties
  | .returnStatement argument => .returnStatement argument :: Node.preorderOpt argument
  | .expressionStatement expression =>
      .expressionStatement expression :: Node.preorder expression
  | .jsxElement name attributes children =>
      .jsxElement name attributes children ::
        (Node.preorder name ++ (Node.preorderList attributes ++ Node.preorderList children))
  | .jsxIdentifier name => [.jsxIdentifier name]
  | .jsxAttribute loc name value =>
      .jsxAttribute loc name value :: (Node.preorder name ++ Node.preorderOpt value)
  | .jsxSpreadAttribute argument =>
      .jsxSpreadAttribute argument :: Node.preorder argument
  | .jsxExpressionContainer expression =>
      .jsxExpressionContainer expression :: Node.preorder expression
  | .jsxText value => [.jsxText value]
  | .jsxFragment children => .jsxFragment children :: Node.preorderList children

/-- Pre-order traversal of a list of sibling nodes. -/
def Node.preorderList : List Node → List Node
  | [] => []
  | n :: ns => Node.preorder n ++ Node.preorderList ns

/-- Pre-order traversal of an optional node. -/
def Node.preorderOpt : Option Node → List Node
  | none => []
  | some n => Node.preorder n

/-- Pre-order traversal of an array-expression's element list (elided
elements are skipped). -/
def Node.preorderOptList : List (Option Node) → List Node
  | [] => []
  | o :: os => Node.preorderOpt o ++ Node.preorderOptList os

end

example :
    (Node.preorder
      (.program [.expressionStatement (.identifier "x")])).length = 3 := rfl

example :
    Node.preorder (.variableDeclarator (.identifier "a") (some (.identifier "b"))) =
      [.variableDeclarator (.identifier "a") (some (.identifier "b")),
       .identifier "a", .identifier "b"] := rfl

/-! ## The shared result record (`src/context/ComponentContext.ts`) -/

/-- `ComponentContext['type']` — the component declaration kind. -/
inductive CompType where
  | FunctionDeclaration
  | ArrowFunctionExpression
  | FunctionExpression
  | ClassDeclaration
  | ForwardRefComponent
  | Unknown
deriving Repr, DecidableEq

/-- `ComponentContext['exportType']` — `'default' | 'named'`. -/
inductive ExportType where
  | default
  | named
deriving Repr, DecidableEq

/-- `ComponentContext['stylingLibrary']['type']` — the styling categories of
`StylingLibraryAnalyzer` (`'tailwind' | 'styled-components' | 'emotion' |
'cva' | 'unknown'`). -/
inductive StylingType where
  | tailwind
  | styledComponents
  | emotion
  | cva
  | unknown
deriving Repr, DecidableEq

/-- One entry of `ComponentContext['props']`.  `PropAnalyzer` always pushes
`type = "any"`, `isOptional = true` and leaves `defaultValue`/`description`
undefined. -/
structure PropInfo where
  name : String
  type : String
  defaultValue : Option String := none
  isOptional : Bool
  description : Option String := none
deriving Repr, DecidableEq

/-- One entry of `ComponentContext['hooks']`. -/
structure HookInfo where
  name : String
  arguments : List String
deriving Repr, DecidableEq

/-- One entry of `ComponentContext['cvaConfigs']`.  In the source
`configObject` is `JSON.stringify(parseCvaConfig(node), null, 2)`; it is
modelled by the reconstructed value itself (see the header comment). -/
structure CvaConfig where
  variableName : String
  configObject : JValue
deriving Repr

/-- One usage entry of the legacy `ComponentContext['classNames']` view. -/
structure LegacyUsage where
  line : Nat
  column : Nat
  arguments : List String
deriving Repr, DecidableEq

/-- The legacy `ComponentContext['classNames']` view. -/
structure ClassNamesLegacy where
  importSource : Option String
  importName : Option String
  usages : List LegacyUsage
deriving Repr, DecidableEq

/-- The typed argument records produced by `ClassNamesAnalyzer`'s
`extractArgs` (`ClassNameArg` in the source: a `type` tag plus an untyped
`value`). -/
inductive CNArg where
  | str (value : String)
  | obj (value : List (String × JValue))
  | arr (value : List String)
  | ident (value : String)
  | cond (condition trueValue falseValue : String)
  | unknown
deriving Repr

/-- One entry of `ComponentContext['classNamesUsage']['usage']`.  The `type`
field holds the display kind string (`'cn' | 'clsx' | 'classnames'`). -/
structure CNUsage where
  type : String
  arguments : List CNArg
  location : Nat × Nat
deriving Repr

/-- `ComponentContext['classNamesUsage']`. -/
structure ClassNamesUsage where
  hasClassNames : Bool
  importSource : String
  usage : List CNUsage
deriving Repr

/-- One prop entry of a `JSXElementInfo`. -/
structure JSXPropInfo where
  name : String
  value : Option String
  isSpread : Bool
deriving Repr, DecidableEq

/-- One child entry of a `JSXElementInfo` (`type` is
`'text' | 'element' | 'expression' | 'fragment'`). -/
structure JSXChildInfo where
  type : String
  content : String
deriving Repr, DecidableEq

/-- One attribute entry of a `JSXElementInfo`. -/
structure JSXAttrInfo where
  name : String
  value : Option String
deriving Repr, DecidableEq

/-- `JSXElementInfo` from `src/context/ComponentContext.ts`. -/
structure JSXElementInfo where
  name : String
  props : List JSXPropInfo
  children : List JSXChildInfo
  attributes : List JSXAttrInfo
deriving Repr, DecidableEq

/-- `ComponentContext['dependencies']`. -/
structure Dependencies where
  components : List JSXElementInfo
  packages : List String
deriving Repr, DecidableEq

/-- `ComponentContext['stylingLibrary']`. -/
structure StylingLibraryInfo where
  type : StylingType
  confidence : Nat
  indicators : List String
deriving Repr, DecidableEq

/-- `ComponentContext['contexts']` (never written by any analyzer). -/
structure ContextsInfo where
  consumes : List String
  provides : List String
deriving Repr, DecidableEq

/-- The shared mutable aggregate record, one per analyzed file
(`ComponentContext` in `src/context/ComponentContext.ts`). -/
structure ComponentContext where
  name : String
  filePath : String
  exportType : ExportType
  type : CompType
  props : List PropInfo
  hooks : List HookInfo
  cvaConfigs : List CvaConfig
  classNames : ClassNamesLegacy
  classNamesUsage : ClassNamesUsage
  dependencies : Dependencies
  jsxStructure : List JSXElementInfo
  contexts : ContextsInfo
  hocWrappers : List String
  stylingLibrary : StylingLibraryInfo
deriving Repr

/-- `createComponentContext` — the fresh context with default values. -/
def createComponentContext (filePath : String) : ComponentContext where
  name := "Unknown"
  filePath := filePath
  exportType := .named
  type := .Unknown
  props := []
  hooks := []
  cvaConfigs := []
  classNames := ⟨none, none, []⟩
  classNamesUsage := ⟨false, "", []⟩
  dependencies := ⟨[], []⟩
  jsxStructure := []
  contexts := ⟨[], []⟩
  hocWrappers := []
  stylingLibrary := ⟨.unknown, 0, []⟩

/-! ## ComponentNameAnalyzer (`src/analyzers/ComponentNameAnalyzer.ts`) -/

/-- `ComponentNameAnalyzer.isForwardRefCall`: a call to `React.forwardRef`
(member access off an identifier named `React`) or to a bare identifier named
`forwardRef`. -/
def isForwardRefCall : Node → Bool
  | .callExpression _ callee _ =>
    match callee with
    | .memberExpression (.identifier o) (.identifier p) =>
        o == "React" && p == "forwardRef"
    | .identifier nm => nm == "forwardRef"
    | _ => false
  | _ => false

/-- `isForwardRefCall` applied to a possibly-absent initializer
(`isCallExpression(null)` is `false`). -/
def isForwardRefCallOpt : Option Node → Bool
  | some n => isForwardRefCall n
  | none => false

/-- One step of the analyzer's first pass: capture a default export's name
(and, for a named function declaration, its type). -/
def cnPass1Step (s : String × CompType × Bool) (n : Node) : String × CompType × Bool :=
  match n with
  | .exportDefaultDecl (.functionDeclaration (some nm) _ _) =>
      (nm, .FunctionDeclaration, true)
  | .exportDefaultDecl (.identifier nm) => (nm, s.2.1, true)
  | _ => s

/-- `ComponentNameAnalyzer.analyzeComponentDeclaration`: resolve the
declaration kind of the captured default-export name. -/
def analyzeComponentDeclaration (n : Node) (expectedName : String) : Option CompType :=
  match n with
  | .variableDeclarator (.identifier nm) init =>
    if nm = expectedName then
      match init with
      | some (.arrowFunctionExpression _ _) => some .ArrowFunctionExpression
      | some (.functionExpression _ _ _) => some .FunctionExpression
      | _ => if isForwardRefCallOpt init then some .ForwardRefComponent else none
    else none
  | .functionDeclaration (some nm) _ _ =>
      if nm = expectedName then some .FunctionDeclaration else none
  | .classDeclaration (some nm) _ =>
      if nm = expectedName then some .ClassDeclaration else none
  | _ => none

/-- `ComponentNameAnalyzer.analyzeNamedExport`: classify exported or
uppercase-initial declarations when no default export exists.  (The source's
trailing `node.parentPath` checks never fire — plain nodes carry no
`parentPath` — and are omitted.) -/
def analyzeNamedExport (n : Node) : Option (String × CompType) :=
  match n with
  | .exportNamedDecl (some (.functionDeclaration (some nm) _ _)) _ =>
      if startsWithUpper nm then some (nm, .FunctionDeclaration) else none
  | .variableDeclarator (.identifier nm) init =>
    if startsWithUpper nm then
      match init with
      | some (.arrowFunctionExpression _ _) => some (nm, .ArrowFunctionExpression)
      | some (.functionExpression _ _ _) => some (nm, .FunctionExpression)
      | _ => if isForwardRefCallOpt init then some (nm, .ForwardRefComponent) else none
    else none
  | .classDeclaration (some nm) _ =>
      if startsWithUpper nm then some (nm, .ClassDeclaration) else none
  | _ => none

/-- One step of the analyzer's second pass. -/
def cnPass2Step (isDefault : Bool) (s : String × CompType) (n : Node) :
    String × CompType :=
  if isDefault then
    if s.2 = .Unknown then
      match analyzeComponentDeclaration n s.1 with
      | some ty => (s.1, ty)
      | none => s
    else s
  else
    match analyzeNamedExport n with
    | some r => r
    | none => s

/-- `ComponentNameAnalyzer.detectComponentInfo`: the two-pass name/type
detection. -/
def detectComponentInfo (t : Node) : String × CompType :=
  let p1 := (Node.preorder t).foldl cnPass1Step ("Unknown", .Unknown, false)
  (Node.preorder t).foldl (cnPass2Step p1.2.2) (p1.1, p1.2.1)

/-- `ComponentNameAnalyzer.analyze`. -/
def ComponentNameAnalyzer.analyze (t : Node) (c : ComponentContext) : ComponentContext :=
  let r := detectComponentInfo t
  { c with name := r.1, type := r.2 }

/-! ## ImportAnalyzer (`src/analyzers/ImportAnalyzer.ts`) -/

/-- `Set.add` followed by `Array.from`: insertion-ordered deduplication. -/
def insertUnique (l : List String) (s : String) : List String :=
  if l.contains s then l else l ++ [s]

/-- The import sources of the tree, first-occurrence order, deduplicated. -/
def importPackages (t : Node) : List String :=
  (Node.preorder t).foldl
    (fun acc n =>
      match n with
      | .importDecl source _ => insertUnique acc source
      | _ => acc) []

/-- `ImportAnalyzer.analyze`. -/
def ImportAnalyzer.analyze (t : Node) (c : ComponentContext) : ComponentContext :=
  { c with dependencies := { c.dependencies with packages := importPackages t } }

/-! ## PropAnalyzer (`src/analyzers/PropAnalyzer.ts`) -/

/-- A prop record as `PropAnalyzer` pushes it. -/
def mkProp (nm : String) : PropInfo := ⟨nm, "any", none, true, none⟩

/-- The props contributed by one object pattern (an object-destructuring
parameter or destructuring declarator id). -/
def patternProps : Node → List PropInfo
  | .objectPattern properties =>
      properties.filterMap fun p =>
        match p with
        | .objectProperty (.identifier k) _ => some (mkProp k)
        | _ => none
  | _ => []

/-- The prop records contributed by a single visited node (the three
syntactic heuristics of `PropAnalyzer.analyze`). -/
def propsOfNode : Node → List PropInfo
  | .memberExpression (.identifier o) p =>
    if o = "props" then
      match p with
      | .identifier pn => [mkProp pn]
      | _ => []
    else []
  | .functionDeclaration _ params _ => params.flatMap patternProps
  | .arrowFunctionExpression params _ => params.flatMap patternProps
  | .variableDeclarator id (some (.identifier inm)) =>
      if inm = "props" then patternProps id else []
  | _ => []

/-- `PropAnalyzer.analyze`. -/
def PropAnalyzer.analyze (t : Node) (c : ComponentContext) : ComponentContext :=
  { c with props := (Node.preorder t).flatMap propsOfNode }

/-! ## HookAnalyzer (`src/analyzers/HookAnalyzer.ts`) -/

/-- Serialization of one element of an array-expression hook argument. -/
def hookArrayEl : Option Node → String
  | some (.identifier nm) => nm
  | some (.stringLiteral v) => v
  | some (.numericLiteral v) => toString v
  | _ => "..."

/-- The exact argument-serialization policy of `HookAnalyzer`. -/
def hookArg : Node → String
  | .identifier nm => nm
  | .stringLiteral v => v
  | .numericLiteral v => toString v
  | .arrayExpression els => "[" ++ String.intercalate ", " (els.map hookArrayEl) ++ "]"
  | .arrowFunctionExpression _ _ => "() => \x7b...\x7d"
  | .functionExpression _ _ _ => "() => \x7b...\x7d"
  | _ => "..."

/-- The hook call records of the tree, one per call site. -/
def hooksOf (t : Node) : List HookInfo :=
  (Node.preorder t).filterMap fun n =>
    match n with
    | .callExpression _ (.identifier nm) args =>
        if nm.startsWith "use" then some ⟨nm, args.map hookArg⟩ else none
    | _ => none

/-- `HookAnalyzer.analyze`. -/
def HookAnalyzer.analyze (t : Node) (c : ComponentContext) : ComponentContext :=
  { c with hooks := hooksOf t }

/-! ## ExportAnalyzer (`src/analyzers/ExportAnalyzer.ts`) -/

/-- One element of the analyzer's `exports` set, before rendering to a
string: a plain exported name, or a default-export marker. -/
inductive ExportEntry where
  | named (name : String)
  | defaultMarker (name : String)
deriving Repr, DecidableEq

/-- The string the analyzer adds to its `exports` set for an entry. -/
def renderExportEntry : ExportEntry → String
  | .named n => n
  | .defaultMarker n => "default: " ++ n

/-- The export entries contributed by a single visited node. -/
def exportEntriesOfNode : Node → List ExportEntry
  | .exportNamedDecl (some d) _ =>
    match d with
    | .variableDeclaration decls =>
        decls.filterMap fun dn =>
          match dn with
          | .variableDeclarator (.identifier nm) _ => some (.named nm)
          | _ => none
    | .functionDeclaration (some nm) _ _ => [.named nm]
    | .classDeclaration (some nm) _ => [.named nm]
    | _ => []
  | .exportNamedDecl none specs =>
      specs.filterMap fun sp =>
        match sp with
        | .exportSpecifier _ (.identifier nm) => some (.named nm)
        | .exportSpecifier _ (.stringLiteral v) => some (.named v)
        | _ => none
  | .exportDefaultDecl d =>
    match d with
    | .identifier nm => [.defaultMarker nm]
    | .functionDeclaration idOpt _ _ => [.defaultMarker (idOpt.getD "(anonymous)")]
    | .classDeclaration idOpt _ => [.defaultMarker (idOpt.getD "(anonymous)")]
    | _ => [.defaultMarker "(anonymous)"]
  | _ => []

/-- All export entries of the tree, in traversal order. -/
def exportEntries (t : Node) : List ExportEntry :=
  (Node.preorder t).flatMap exportEntriesOfNode

/-- The strings in the analyzer's `exports` set (only membership is ever
queried, so `Set` deduplication is irrelevant). -/
def exportsList (t : Node) : List String :=
  (exportEntries t).map renderExportEntry

/-- `ExportAnalyzer.analyze`: `exportType` is `default` exactly when the set
contains the hardcoded marker string `"default: MyComponent"`. -/
def ExportAnalyzer.analyze (t : Node) (c : ComponentContext) : ComponentContext :=
  { c with
    exportType :=
      if (exportsList t).contains "default: MyComponent" then .default else .named }

/-! ## JSXElementAnalyzer (the map-keyed collector) -/

/-- The element name used as map key:
`isJSXIdentifier(openingElement.name) ? name : 'Unknown'`. -/
def jsxName : Node → String
  | .jsxIdentifier nm => nm
  | _ => "Unknown"

/-- `JSXElementAnalyzer.extractPropValue`: best-effort literal value of an
attribute. -/
def extractPropValue : Option Node → Option String
  | none => none
  | some (.stringLiteral s) => some s
  | some (.jsxExpressionContainer (.stringLiteral s)) => some s
  | some (.jsxExpressionContainer (.identifier nm)) => some nm
  | some _ => none

/-- `JSXElementAnalyzer.extractChildInfo`. -/
def extractChildInfo : Node → Option JSXChildInfo
  | .jsxText v =>
      let content := v.trim
      if content = "" then none else some ⟨"text", content⟩
  | .jsxElement nm _ _ => some ⟨"element", jsxName nm⟩
  | .jsxExpressionContainer (.identifier nm) => some ⟨"expression", nm⟩
  | .jsxFragment _ => some ⟨"fragment", "Fragment"⟩
  | _ => none

/-- The props/attributes accumulated over an opening element's attribute
list (attributes are duplicated without the spread flag only for elements
whose tag starts with a lower-case letter). -/
def jsxAttrFold (elementName : String) (attrs : List Node) :
    List JSXPropInfo × List JSXAttrInfo :=
  attrs.foldl
    (fun acc attr =>
      match attr with
      | .jsxSpreadAttribute _ => (acc.1 ++ [⟨"...", none, true⟩], acc.2)
      | .jsxAttribute _ nameN valueO =>
          let propName := jsxName nameN
          let propValue := extractPropValue valueO
          ((acc.1 ++ [⟨propName, propValue, false⟩]),
           if startsWithLower elementName then acc.2 ++ [⟨propName, propValue⟩]
           else acc.2)
      | _ => acc)
    ([], [])

/-- The `JSXElementInfo` built for one visited markup element node. -/
def elementInfoOf : Node → Option JSXElementInfo
  | .jsxElement nameN attrs children =>
      let elementName := jsxName nameN
      let pa := jsxAttrFold elementName attrs
      some ⟨elementName, pa.1, children.filterMap extractChildInfo, pa.2⟩
  | _ => none

/-- `Map.set` semantics for the name-keyed element map: replace in place if
the key exists, append otherwise. -/
def jsxMapSet (m : List (String × JSXElementInfo)) (k : String)
    (v : JSXElementInfo) : List (String × JSXElementInfo) :=
  match m with
  | [] => [(k, v)]
  | (k', v') :: rest =>
    if k' = k then (k', v) :: rest else (k', v') :: jsxMapSet rest k v

/-- The element infos of the tree, in traversal order (before map
collapsing). -/
def jsxInfos (t : Node) : List JSXElementInfo :=
  (Node.preorder t).filterMap elementInfoOf

/-- The name-keyed element map of `JSXElementAnalyzer.analyze`. -/
def jsxMap (t : Node) : List (String × JSXElementInfo) :=
  (jsxInfos t).foldl (fun m info => jsxMapSet m info.name info) []

/-- `JSXElementAnalyzer.analyze`:
`context.dependencies.components = Array.from(elements.values())`. -/
def JSXElementAnalyzer.analyze (t : Node) (c : ComponentContext) : ComponentContext :=
  { c with
    dependencies := { c.dependencies with components := (jsxMap t).map (·.2) } }

/-! ## CVAAnalyzer (`src/analyzers/CVAAnalyzer.ts`) -/

/-- `Object.assign(result, spreadValue)` for a spread element whose resolved
value satisfies `typeof spreadValue === 'object'` (objects merge key-wise,
arrays copy their index keys, `null` is a no-op; all other values were
already filtered out by the `typeof` test). -/
def mergeSpread (acc : List (String × JValue)) : JValue → List (String × JValue)
  | .obj fields => fields.foldl (fun a kv => objInsert a kv.1 kv.2) acc
  | .arr xs =>
      (xs.foldl (fun (st : List (String × JValue) × Nat) x =>
        (objInsert st.1 (toString st.2) x, st.2 + 1)) (acc, 0)).1
  | _ => acc

mutual

/-- `CVAAnalyzer.extractValue`: recursive JSON-like value reconstruction. -/
def extractValue : Node → JValue
  | .stringLiteral v => .str v
  | .templateLiteral quasis _ => .str (String.join quasis)
  | .arrayExpression els => .arr (extractArray els)
  | .objectExpression props => .obj (extractObject props [])
  | .identifier nm => .str nm
  | .numericLiteral v => .num v
  | .booleanLiteral b => .bool b
  | .nullLiteral => .null
  | .callExpression _ callee args =>
      .obj [("type", .str "call"), ("callee", extractValue callee),
            ("arguments", .arr (extractList args))]
  | _ => .str ""

/-- `CVAAnalyzer.extractArray` (elided elements become `null`). -/
def extractArray : List (Option Node) → List JValue
  | [] => []
  | none :: rest => .null :: extractArray rest
  | some e :: rest => extractValue e :: extractArray rest

/-- `extractValue` mapped over a call's argument list. -/
def extractList : List Node → List JValue
  | [] => []
  | e :: rest => extractValue e :: extractList rest

/-- `CVAAnalyzer.extractObject`, threading the accumulated field list. -/
def extractObject : List Node → List (String × JValue) → List (String × JValue)
  | [], acc => acc
  | .objectProperty (.identifier k) v :: rest, acc =>
      extractObject rest (objInsert acc k (extractValue v))
  | .objectProperty (.stringLiteral k) v :: rest, acc =>
      extractObject rest (objInsert acc k (extractValue v))
  | .spreadElement a :: rest, acc =>
      extractObject rest (mergeSpread acc (extractValue a))
  | _ :: rest, acc => extractObject rest acc

end

/-- `CVAAnalyzer.findProperty` followed by `.value`: the value node of the
first object property with the given identifier key. -/
def findPropertyValue (props : List Node) (nm : String) : Option Node :=
  match props with
  | [] => none
  | .objectProperty (.identifier k) v :: rest =>
      if k = nm then some v else findPropertyValue rest nm
  | _ :: rest => findPropertyValue rest nm

/-- The default (empty) reconstructed CVA config. -/
def emptyCvaValue : JValue :=
  .obj [("base", .str ""), ("variants", .obj []), ("defaultVariants", .obj []),
        ("compoundVariants", .arr [])]

/-- `CVAAnalyzer.parseCvaConfig`. -/
def parseCvaConfig : Node → JValue
  | .callExpression _ _ (a0 :: rest) =>
    let base := extractValue a0
    let cfg :=
      match rest.head? with
      | some (.objectExpression props) =>
        let vars :=
          match findPropertyValue props "variants" with
          | some (.objectExpression ps) => JValue.obj (extractObject ps [])
          | _ => JValue.obj []
        let defVars :=
          match findPropertyValue props "defaultVariants" with
          | some (.objectExpression ps) => JValue.obj (extractObject ps [])
          | _ => JValue.obj []
        let compVars :=
          match findPropertyValue props "compoundVariants" with
          | some (.arrayExpression els) => JValue.arr (extractArray els)
          | _ => JValue.arr []
        (vars, defVars, compVars)
      | _ => (JValue.obj [], JValue.obj [], JValue.arr [])
    .obj [("base", base), ("variants", cfg.1), ("defaultVariants", cfg.2.1),
          ("compoundVariants", cfg.2.2)]
  | _ => emptyCvaValue

/-- `CVAAnalyzer.isCvaCall`. -/
def isCvaCall : Node → Bool
  | .callExpression _ (.identifier nm) _ => nm == "cva"
  | _ => false

/-- The captured CVA configs: `cva(...)` calls whose parent is a variable
declarator with an identifier id (the declarator and its `init` are adjacent
in pre-order, so collecting at the declarator preserves the source's
order). -/
def cvaConfigsOf (t : Node) : List CvaConfig :=
  (Node.preorder t).filterMap fun n =>
    match n with
    | .variableDeclarator (.identifier nm) (some init) =>
        if isCvaCall init then some ⟨nm, parseCvaConfig init⟩ else none
    | _ => none

/-- `CVAAnalyzer.analyze`. -/
def CVAAnalyzer.analyze (t : Node) (c : ComponentContext) : ComponentContext :=
  { c with cvaConfigs := cvaConfigsOf t }

/-! ## ClassNamesAnalyzer (`src/analyzers/ClassNamesAnalyzer.ts`) -/

/-- The canonical utility names tested by the analyzer. -/
def canonicalUtils : List String := ["cn", "clsx", "classnames", "cx"]

/-- `Map.set` for the `importedUtils` map (local binding → import source). -/
def utilMapSet (m : List (String × String)) (k v : String) :
    List (String × String) :=
  match m with
  | [] => [(k, v)]
  | (k', v') :: rest =>
    if k' = k then (k', v) :: rest else (k', v') :: utilMapSet rest k v

/-- `Map.get` for the `importedUtils` map. -/
def utilMapGet (m : List (String × String)) (k : String) : Option String :=
  match m with
  | [] => none
  | (k', v') :: rest => if k' = k then some v' else utilMapGet rest k

/-- One step of the analyzer's first pass over a visited node: for every
visited import declaration, record each named specifier whose *imported*
name is one of the canonical utility names, keyed by its local binding, and flip
`hasClassNames`/`importSource`. -/
def cnImportStep (acc : List (String × String) × Bool × String) (n : Node) :
    List (String × String) × Bool × String :=
  match n with
  | .importDecl source specs =>
      specs.foldl
        (fun a sp =>
          match sp with
          | .importSpecifier (.identifier imported) (.identifier lcl) =>
              if canonicalUtils.contains imported then
                (utilMapSet a.1 lcl source, true, source)
              else a
          | _ => a)
        acc
  | _ => acc

/-- The analyzer's first pass: `(importedUtils, hasClassNames, importSource)`
after all imports are scanned. -/
def classNamesPass1 (t : Node) : List (String × String) × Bool × String :=
  (Node.preorder t).foldl cnImportStep ([], false, "")

/-- One entry of an object argument's reconstructed value:
`isBooleanLiteral ? value : isStringLiteral ? value : true`. -/
def cnObjVal : Node → JValue
  | .booleanLiteral b => .bool b
  | .stringLiteral s => .str s
  | _ => .bool true

/-- `ClassNamesAnalyzer`'s `extractArgs` argument classification. -/
def extractCNArg : Node → CNArg
  | .stringLiteral v => .str v
  | .templateLiteral quasis _ => .str (String.join quasis)
  | .objectExpression props =>
      .obj (props.foldl
        (fun acc p =>
          match p with
          | .objectProperty (.identifier k) v => objInsert acc k (cnObjVal v)
          | _ => acc) [])
  | .arrayExpression els =>
      .arr (((els.map fun el =>
        match el with
        | some (.stringLiteral s) => some s
        | some (.identifier nm) => some nm
        | _ => none).filterMap id).filter (fun s => s ≠ ""))
  | .identifier nm => .ident nm
  | .conditionalExpression test consequent alternate =>
      let cnd :=
        match test with
        | .binaryExpression op l r =>
            (match l with | .identifier nm => nm | _ => "") ++ " " ++ op ++ " " ++
              (match r with | .numericLiteral v => toString v | _ => "")
        | .identifier nm => nm
        | _ => ""
      let tv :=
        match consequent with
        | .stringLiteral s => s
        | .identifier nm => nm
        | _ => ""
      let fv :=
        match alternate with
        | .stringLiteral s => s
        | .identifier nm => nm
        | _ => ""
      .cond cnd tv fv
  | _ => .unknown

/-- Is the callee name a canonical utility or a pass-1 local binding? -/
def isCNCallee (utils : List (String × String)) (nm : String) : Bool :=
  canonicalUtils.contains nm || (utilMapGet utils nm).isSome

/-- The display kind recorded for a matched call
(`importedUtils.has → 'cn'`, literal `'cn'`/`'clsx'`, otherwise
`'classnames'`). -/
def typeForContext (utils : List (String × String)) (nm : String) : String :=
  if (utilMapGet utils nm).isSome then "cn"
  else if nm = "cn" then "cn"
  else if nm = "clsx" then "clsx"
  else "classnames"

/-- `path.node.loc ? {line, column} : {line: 0, column: 0}`. -/
def locOrZero : Option (Nat × Nat) → Nat × Nat
  | some l => l
  | none => (0, 0)

/-- The usage records contributed by one visited node in the analyzer's
second pass: direct calls, and calls inside a `className` attribute's
expression container. -/
def cnUsagesOfNode (utils : List (String × String)) : Node → List CNUsage
  | .callExpression loc (.identifier nm) args =>
      if isCNCallee utils nm then
        [⟨typeForContext utils nm, args.map extractCNArg, locOrZero loc⟩]
      else []
  | .jsxAttribute loc (.jsxIdentifier anm)
      (some (.jsxExpressionContainer (.callExpression _ (.identifier cnm) args))) =>
      if anm = "className" && isCNCallee utils cnm then
        [⟨typeForContext utils cnm, args.map extractCNArg, locOrZero loc⟩]
      else []
  | _ => []

/-- All usage records of the tree, in traversal order. -/
def cnUsages (t : Node) (utils : List (String × String)) : List CNUsage :=
  (Node.preorder t).flatMap (cnUsagesOfNode utils)

mutual

/-- Compact `JSON.stringify` of a reconstructed value (string escaping
beyond the quotes themselves is not modelled; no analyzed value ever
round-trips through it). -/
def jsonOfJValue : JValue → String
  | .str s => "\"" ++ s ++ "\""
  | .num n => toString n
  | .bool b => if b then "true" else "false"
  | .null => "null"
  | .arr xs => "[" ++ String.intercalate "," (jsonOfList xs) ++ "]"
  | .obj fs => "\x7b" ++ String.intercalate "," (jsonOfFields fs) ++ "\x7d"

/-- `jsonOfJValue` over an array's elements. -/
def jsonOfList : List JValue → List String
  | [] => []
  | v :: rest => jsonOfJValue v :: jsonOfList rest

/-- `jsonOfJValue` over an object's fields. -/
def jsonOfFields : List (String × JValue) → List String
  | [] => []
  | (k, v) :: rest => ("\"" ++ k ++ "\":" ++ jsonOfJValue v) :: jsonOfFields rest

end

/-- Flattening of one typed argument for the legacy view: conditionals are
rendered as `cond ? "t" : "f"`, string-valued arguments pass through, and
object/array values are JSON-serialized. -/
def flattenCNArg : CNArg → String
  | .cond c tv fv => c ++ " ? \"" ++ tv ++ "\" : \"" ++ fv ++ "\""
  | .str v => v
  | .ident v => v
  | .unknown => ""
  | .obj kvs => jsonOfJValue (.obj kvs)
  | .arr xs => jsonOfJValue (.arr (xs.map .str))

/-- The legacy view of one usage record. -/
def legacyOfUsage (u : CNUsage) : LegacyUsage :=
  ⟨u.location.1, u.location.2, u.arguments.map flattenCNArg⟩

/-- `ClassNamesAnalyzer.analyze`: both passes plus the derived legacy
`classNames` view (only written when `hasClassNames` ended up true). -/
def ClassNamesAnalyzer.analyze (t : Node) (c : ComponentContext) : ComponentContext :=
  let p1 := classNamesPass1 t
  let usages := cnUsages t p1.1
  let hasCN := p1.2.1 || !usages.isEmpty
  { c with
    classNamesUsage := ⟨hasCN, p1.2.2, usages⟩,
    classNames :=
      if hasCN then
        ⟨some p1.2.2, usages.head?.map (·.type), usages.map legacyOfUsage⟩
      else c.classNames }

/-! ## StylingLibraryAnalyzer (scoring classifier) -/

/-- One category's accumulated score and indicator list (`StylingScore`). -/
structure ScoreInfo where
  score : Nat
  indicators : List String
deriving Repr, DecidableEq

/-- The five-category score map, in the `Map` insertion order of the source
(`tailwind`, `styled-components`, `emotion`, `cva`, `unknown`). -/
structure StylScores where
  tailwind : ScoreInfo
  styledComponents : ScoreInfo
  emotion : ScoreInfo
  cva : ScoreInfo
  unknown : ScoreInfo
deriving Repr, DecidableEq

/-- The all-zero initial score map. -/
def zeroScores : StylScores := ⟨⟨0, []⟩, ⟨0, []⟩, ⟨0, []⟩, ⟨0, []⟩, ⟨0, []⟩⟩

/-- `TAILWIND_CLASS_PATTERNS`. -/
def tailwindClassList : List String :=
  ["text-", "bg-", "p-", "m-", "flex-", "grid-", "w-", "h-", "rounded-",
   "border-", "shadow-", "transition-", "hover:", "focus:", "active:",
   "disabled:", "dark:", "light:"]

mutual

/-- `StylingLibraryAnalyzer.hasTailwindClasses`: recursive scan of a
reconstructed value for any tailwind-style class-name substring. -/
def hasTailwindClasses : JValue → Bool
  | .str s => tailwindClassList.any (fun pat => strContains s pat)
  | .arr xs => hasTailwindClassesList xs
  | .obj fs => hasTailwindClassesFields fs
  | _ => false

/-- `hasTailwindClasses` over an array's elements. -/
def hasTailwindClassesList : List JValue → Bool
  | [] => false
  | v :: rest => hasTailwindClasses v || hasTailwindClassesList rest

/-- `hasTailwindClasses` over an object's values. -/
def hasTailwindClassesFields : List (String × JValue) → Bool
  | [] => false
  | (_, v) :: rest => hasTailwindClasses v || hasTailwindClassesFields rest

end

/-- Add points and an indicator to the tailwind category. -/
def addTailwind (s : StylScores) (k : Nat) (ind : String) : StylScores :=
  { s with tailwind := ⟨s.tailwind.score + k, s.tailwind.indicators ++ [ind]⟩ }

/-- Add points and an indicator to the styled-components category. -/
def addStyled (s : StylScores) (k : Nat) (ind : String) : StylScores :=
  { s with
    styledComponents :=
      ⟨s.styledComponents.score + k, s.styledComponents.indicators ++ [ind]⟩ }

/-- Add points and an indicator to the emotion category. -/
def addEmotion (s : StylScores) (k : Nat) (ind : String) : StylScores :=
  { s with emotion := ⟨s.emotion.score + k, s.emotion.indicators ++ [ind]⟩ }

/-- The per-config tailwind bonus of the seed step (+50 when the
reconstructed config value contains a tailwind-style substring; the
`JSON.parse` of the stringified config always succeeds, so only the `try`
branch runs). -/
def seedTailwindBonus (cfg : CvaConfig) : Nat :=
  if hasTailwindClasses cfg.configObject then 50 else 0

/-- One config's contribution inside the seed loop: a cva indicator plus a
+50 tailwind bonus when the reconstructed value contains a tailwind-style
substring (the `JSON.parse` of the stringified config always succeeds, so
only the `try` branch runs). -/
def seedStep (s : StylScores) (cfg : CvaConfig) : StylScores :=
  let s' :=
    { s with
      cva := { s.cva with
        indicators := s.cva.indicators ++ ["CVA config: " ++ cfg.variableName] } }
  if hasTailwindClasses cfg.configObject then
    { s' with
      tailwind := ⟨s'.tailwind.score + 50,
        s'.tailwind.indicators ++
          ["Found Tailwind classes in CVA config: " ++ cfg.variableName]⟩ }
  else s'

/-- The seed step of `StylingLibraryAnalyzer.analyze`: +100 to the cva
category when any configs exist, plus the per-config contributions. -/
def seedScores (cfgs : List CvaConfig) : StylScores :=
  if cfgs.isEmpty then zeroScores
  else
    cfgs.foldl seedStep
      { zeroScores with
        cva := ⟨100,
          ["Found " ++ toString cfgs.length ++ " CVA configuration(s)"]⟩ }

/-- `StylingLibraryAnalyzer.analyzeImports`: the `importScores` entries in
key order, then the plain-`.css` rule. -/
def stylAnalyzeImports (n : Node) (s : StylScores) : StylScores :=
  match n with
  | .importDecl source _ =>
    let s := if strContains source "tailwind" then
        addTailwind s 30 ("Imports from " ++ source) else s
    let s := if strContains source "clsx" then
        addTailwind s 20 ("Imports from " ++ source) else s
    let s := if strContains source "tailwind-merge" then
        addTailwind s 20 ("Imports from " ++ source) else s
    let s := if strContains source "styled-components" then
        addStyled s 50 ("Imports from " ++ source) else s
    let s := if strContains source "@emotion/react" then
        addEmotion s 50 ("Imports from " ++ source) else s
    if source.endsWith ".css" && !source.endsWith ".module.css" then
      addTailwind s 15 ("Imports CSS file: " ++ source)
    else s
  | _ => s

/-- `StylingLibraryAnalyzer.analyzeClassNames`: +25 for a `className`
attribute whose string value contains a tailwind-style substring. -/
def stylAnalyzeClassNames (n : Node) (s : StylScores) : StylScores :=
  match n with
  | .jsxAttribute _ (.jsxIdentifier "className") (some (.stringLiteral cls)) =>
      if tailwindClassList.any (fun pat => strContains cls pat) then
        addTailwind s 25 ("Uses Tailwind-like class: " ++ cls)
      else s
  | _ => s

/-- `StylingLibraryAnalyzer.analyzeStyledComponents`. -/
def stylAnalyzeStyled (n : Node) (s : StylScores) : StylScores :=
  match n with
  | .taggedTemplateExpression (.identifier tagName) _ =>
      if tagName = "styled" || tagName.endsWith "Styled" then
        addStyled s 30 ("Uses styled-components: " ++ tagName)
      else s
  | _ => s

/-- `StylingLibraryAnalyzer.analyzeEmotion`. -/
def stylAnalyzeEmotion (n : Node) (s : StylScores) : StylScores :=
  match n with
  | .callExpression _ (.identifier "css") _ =>
      addEmotion s 30 "Uses Emotion css function"
  | _ => s

/-- The four per-node checks of the traversal, in source order. -/
def stylTraverseStep (s : StylScores) (n : Node) : StylScores :=
  stylAnalyzeEmotion n (stylAnalyzeStyled n (stylAnalyzeClassNames n
    (stylAnalyzeImports n s)))

/-- The scores after the seed step and the full traversal. -/
def stylingScores (t : Node) (cfgs : List CvaConfig) : StylScores :=
  (Node.preorder t).foldl stylTraverseStep (seedScores cfgs)

/-- The category's score record inside the map. -/
def scoreOf (s : StylScores) : StylingType → ScoreInfo
  | .tailwind => s.tailwind
  | .styledComponents => s.styledComponents
  | .emotion => s.emotion
  | .cva => s.cva
  | .unknown => s.unknown

/-- The `Map` iteration order of the categories. -/
def stylOrder : List StylingType :=
  [.tailwind, .styledComponents, .emotion, .cva, .unknown]

/-- The category's display name (as used in the runner-up indicator). -/
def stylNameOf : StylingType → String
  | .tailwind => "tailwind"
  | .styledComponents => "styled-components"
  | .emotion => "emotion"
  | .cva => "cva"
  | .unknown => "unknown"

/-- Replace one category's record in the map. -/
def setCat (s : StylScores) (ty : StylingType) (ci : ScoreInfo) : StylScores :=
  match ty with
  | .tailwind => { s with tailwind := ci }
  | .styledComponents => { s with styledComponents := ci }
  | .emotion => { s with emotion := ci }
  | .cva => { s with cva := ci }
  | .unknown => { s with unknown := ci }

/-- One iteration of the highest/second-highest loop of
`calculateConfidence`; the state is
`(maxScore, detectedType, secondaryType, secondaryScore)`. -/
def confStep (s : StylScores) (st : Nat × StylingType × Option StylingType × Nat)
    (ty : StylingType) : Nat × StylingType × Option StylingType × Nat :=
  let sc := (scoreOf s ty).score
  if sc > st.1 then (sc, ty, some st.2.1, st.1)
  else if sc > st.2.2.2 then (st.1, st.2.1, some ty, sc)
  else st

/-- The first pass of `calculateConfidence`: the highest and second-highest
scores with their categories (`detectedType` starts as `unknown`,
`secondaryType` as `null`). -/
def confLoop (s : StylScores) : Nat × StylingType × Option StylingType × Nat :=
  stylOrder.foldl (confStep s) (0, .unknown, none, 0)

/-- The max/argmax part of the loop on its own. -/
def bestStep (s : StylScores) (q : Nat × StylingType) (ty : StylingType) :
    Nat × StylingType :=
  if (scoreOf s ty).score > q.1 then ((scoreOf s ty).score, ty) else q

/-- `StylingLibraryAnalyzer.calculateConfidence`, returning the detected
type, the confidence, and the (possibly mutated) score map. -/
def calculateConfidence (s : StylScores) : StylingType × Nat × StylScores :=
  let r := confLoop s
  let maxScore := r.1
  let detected := r.2.1
  let secTy := r.2.2.1
  let secSc := r.2.2.2
  if detected = .unknown then (.unknown, 0, s)
  else
    let indicatorCount := (scoreOf s detected).indicators.length
    let confidence := min 100 (maxScore + indicatorCount * 15)
    if secTy.isSome && secSc > 50 then
      let confidence := max 60 (min confidence 80)
      let ind := (scoreOf s detected).indicators ++
        ["Also using " ++ stylNameOf (secTy.getD .unknown) ++
         " (score: " ++ toString secSc ++ ")"]
      (detected, confidence, setCat s detected ⟨maxScore, ind⟩)
    else (detected, confidence, s)

/-- `StylingLibraryAnalyzer.analyze`.  The source reads
`scores.get(detectedType)?.indicators || [fallback]` after
`calculateConfidence` ran; the `get` always succeeds and an empty array is
truthy in JavaScript, so the fallback is dead and the indicators are those
of the detected category in the mutated map. -/
def StylingLibraryAnalyzer.analyze (t : Node) (c : ComponentContext) :
    ComponentContext :=
  let s := stylingScores t c.cvaConfigs
  let r := calculateConfidence s
  { c with stylingLibrary := ⟨r.1, r.2.1, (scoreOf r.2.2 r.1).indicators⟩ }

/-! ## The pipeline (`src/core/TreeSift.ts`) -/

/-- The analyzers in the fixed execution order of `TreeSift.analyze`. -/
def analyzerList : List (Node → ComponentContext → ComponentContext) :=
  [ComponentNameAnalyzer.analyze, ImportAnalyzer.analyze, PropAnalyzer.analyze,
   HookAnalyzer.analyze, ExportAnalyzer.analyze, JSXElementAnalyzer.analyze,
   CVAAnalyzer.analyze, ClassNamesAnalyzer.analyze, StylingLibraryAnalyzer.analyze]

/-- Run a list of analyzers over a fresh context. -/
def runAnalyzers (l : List (Node → ComponentContext → ComponentContext))
    (t : Node) (fp : String) : ComponentContext :=
  l.foldl (fun c a => a t c) (createComponentContext fp)

/-- `TreeSift.analyze`: the full pipeline on a tree and file path. -/
def TreeSift.analyze (t : Node) (fp : String) : ComponentContext :=
  runAnalyzers analyzerList t fp

/-! ## Derived views, spec-side definitions and concrete example trees -/

/-- Swap the elements at positions `i` and `j` of a list (used to model
reordering two analyzers of the pipeline). -/
def swapList {α : Type _} (i j : Nat) (l : List α) : List α :=
  match l.get? i, l.get? j with
  | some x, some y => (l.set i y).set j x
  | _, _ => l

/-- Two successive invocations of the full pipeline on the same inputs.  In
the embedding any cross-call state would have to appear as an explicit
argument threaded between the two calls; `TreeSift.analyze` has none — each
invocation starts from `createComponentContext` — so the two components are
the same expression. -/
def analyzeTwice (t : Node) (fp : String) : ComponentContext × ComponentContext :=
  (TreeSift.analyze t fp, TreeSift.analyze t fp)

/-- Chained key lookup inside a reconstructed value. -/
def jLookupChain (v : JValue) : List String → Option JValue
  | [] => some v
  | k :: ks =>
    match v with
    | .obj fs =>
      match objLookup fs k with
      | some v' => jLookupChain v' ks
      | none => none
    | _ => none

/-- Spec-side definition (§4.9 final decision): the maximum accumulated
score over all categories. -/
def specMaxScore (s : StylScores) : Nat :=
  max (max (max (max s.tailwind.score s.styledComponents.score)
    s.emotion.score) s.cva.score) s.unknown.score

/-- Spec-side definition (§4.9 final decision): the category with the
highest score, ties resolved to the first category in declaration order
(tailwind, styled-components, emotion, variant-authoring, unknown).  Stated
from the spec's words, to be compared with the source's `calculateConfidence`
loop. -/
def specStylingWinner (s : StylScores) : StylingType :=
  if s.tailwind.score = specMaxScore s then .tailwind
  else if s.styledComponents.score = specMaxScore s then .styledComponents
  else if s.emotion.score = specMaxScore s then .emotion
  else if s.cva.score = specMaxScore s then .cva
  else .unknown

/-- The `(local binding, import source)` pairs of the named import
specifiers whose *imported* name is a canonical utility name, in traversal
order — the pairs pass 1 of `ClassNamesAnalyzer` records. -/
def utilImportsOfNode : Node → List (String × String)
  | .importDecl source specs =>
      specs.filterMap fun sp =>
        match sp with
        | .importSpecifier (.identifier imported) (.identifier lcl) =>
            if canonicalUtils.contains imported then some (lcl, source) else none
        | _ => none
  | _ => []

/-- All such pairs of the tree, in traversal order. -/
def utilImports (t : Node) : List (String × String) :=
  (Node.preorder t).flatMap utilImportsOfNode

/-- Apply `f` to the accumulator for `some`, keep it for `none`. -/
def optStep {β γ : Type _} (f : β → γ → β) (acc : β) : Option γ → β
  | some c => f acc c
  | none => acc

/-- The inner update applied for each matching specifier of pass 1. -/
def cnInner (a : List (String × String) × Bool × String) (kv : String × String) :
    List (String × String) × Bool × String :=
  (utilMapSet a.1 kv.1 kv.2, true, kv.2)

/-- The first-pass update restricted to a default-export node's
declaration. -/
def dexpStep (s : String × CompType × Bool) (d : Node) : String × CompType × Bool :=
  match d with
  | .functionDeclaration (some nm) _ _ => (nm, .FunctionDeclaration, true)
  | .identifier nm => (nm, s.2.1, true)
  | _ => s

/-- The declaration of a default-export node, if any. -/
def exportDefaultOf : Node → Option Node
  | .exportDefaultDecl d => some d
  | _ => none

/-- The declarations of the tree's default-export nodes, in traversal
order. -/
def defaultExportDecls (t : Node) : List Node :=
  (Node.preorder t).filterMap exportDefaultOf

/-- The successive results of `analyzeComponentDeclaration` over the tree:
the type resolutions of the declarations matching the captured name, in
traversal order. -/
def componentDeclMatches (t : Node) (nm : String) : List CompType :=
  (Node.preorder t).filterMap fun n => analyzeComponentDeclaration n nm

/-- Is the node a call expression whose callee identifier is a canonical
utility name or one of the recorded local bindings?  (`Bool`-valued so that
hypotheses quantifying over the tree's nodes stay decidable.) -/
def isMatchingCNCall (utils : List (String × String)) : Node → Bool
  | .callExpression _ (.identifier nm) _ => isCNCallee utils nm
  | _ => false

/-- The number of entries of the element map with the given key. -/
def keyCount (m : List (String × JSXElementInfo)) (k : String) : Nat :=
  (m.filter (fun kv => kv.1 == k)).length

/-- The first entry of the element map with the given key. -/
def mapFind (m : List (String × JSXElementInfo)) (k : String) :
    Option JSXElementInfo :=
  match m with
  | [] => none
  | (k', v') :: rest => if k' == k then some v' else mapFind rest k

/-- The element map built from a list of element infos, starting from an
arbitrary accumulator. -/
def buildJsxMap (l : List JSXElementInfo) (m : List (String × JSXElementInfo)) :
    List (String × JSXElementInfo) :=
  l.foldl (fun m info => jsxMapSet m info.name info) m

/-- §8 scenario source:
`export default function Widget(props) { const {title} = props; return <div className="p-2">{title}</div>; }`. -/
def widgetTree : Node :=
  .program [
    .exportDefaultDecl (.functionDeclaration (some "Widget") [.identifier "props"] [
      .variableDeclaration [
        .variableDeclarator
          (.objectPattern [.objectProperty (.identifier "title") (.identifier "title")])
          (some (.identifier "props"))],
      .returnStatement (some (.jsxElement (.jsxIdentifier "div")
        [.jsxAttribute none (.jsxIdentifier "className") (some (.stringLiteral "p-2"))]
        [.jsxExpressionContainer (.identifier "title")]))])]

/-- The §8 round-trip config:
`cva("px-4 py-2", { variants: { intent: { primary: "bg-blue-500", secondary: "bg-gray-200" } }, defaultVariants: { intent: "primary" } })`. -/
def cvaButtonCall : Node :=
  .callExpression none (.identifier "cva")
    [.stringLiteral "px-4 py-2",
     .objectExpression [
       .objectProperty (.identifier "variants")
         (.objectExpression [
           .objectProperty (.identifier "intent")
             (.objectExpression [
               .objectProperty (.identifier "primary") (.stringLiteral "bg-blue-500"),
               .objectProperty (.identifier "secondary") (.stringLiteral "bg-gray-200")])]),
       .objectProperty (.identifier "defaultVariants")
         (.objectExpression [
           .objectProperty (.identifier "intent") (.stringLiteral "primary")])]]

/-- `const buttonVariants = cva(...)` as a whole source file. -/
def cvaButtonTree : Node :=
  .program [.variableDeclaration [
    .variableDeclarator (.identifier "buttonVariants") (some cvaButtonCall)]]

/-- `import { cn as myCn } from "clsx"` — the local binding is *not* a
canonical name, the imported name is. -/
def cnAliasedLocalTree : Node :=
  .program [.importDecl "clsx" [.importSpecifier (.identifier "cn") (.identifier "myCn")]]

/-- `import { foo as cn } from "util-lib"` — the local binding *is* a
canonical name, the imported name is not. -/
def cnLocalIsCnTree : Node :=
  .program [.importDecl "util-lib" [.importSpecifier (.identifier "foo") (.identifier "cn")]]

/-- `import { cn } from "clsx"` with no call sites at all. -/
def cnImportOnlyTree : Node :=
  .program [.importDecl "clsx" [.importSpecifier (.identifier "cn") (.identifier "cn")]]

/-- Two sibling `<Row/>` elements with different attributes inside a
`<div>`. -/
def rowSiblingsTree : Node :=
  .program [.returnStatement (some (.jsxElement (.jsxIdentifier "div") [] [
    .jsxElement (.jsxIdentifier "Row")
      [.jsxAttribute none (.jsxIdentifier "a") (some (.stringLiteral "1"))] [],
    .jsxElement (.jsxIdentifier "Row")
      [.jsxAttribute none (.jsxIdentifier "b") (some (.stringLiteral "2"))] []]))]

/-- `const Fancy = forwardRef(() => null); export default Fancy;`. -/
def fancyForwardRefTree : Node :=
  .program [
    .variableDeclaration [
      .variableDeclarator (.identifier "Fancy")
        (some (.callExpression none (.identifier "forwardRef")
          [.arrowFunctionExpression [] [.returnStatement (some .nullLiteral)]]))],
    .exportDefaultDecl (.identifier "Fancy")]

/-- `export default MyWidget;` with `MyWidget` undeclared (for the export
classifier's witness). -/
def defaultOtherNameTree : Node :=
  .program [.exportDefaultDecl (.identifier "MyWidget")]

/-- The empty source file. -/
def emptyTree : Node := .program []

/-! ## General lemmas about folds over traversals -/


theorem foldl_filterMap_eq {α β γ : Type _} (h : α → Option γ) (f : β → γ → β)
    (l : List α) (b : β) :
    (l.filterMap h).foldl f b = l.foldl (fun acc a => optStep f acc (h a)) b := by
  induction l generalizing b with
  | nil => rfl
  | cons x xs ih => cases hx : h x <;> simp [List.filterMap_cons, hx, ih, optStep]

theorem foldl_flatMap_eq {α β γ : Type _} (g : α → List γ) (f : β → γ → β)
    (l : List α) (b : β) :
    (l.flatMap g).foldl f b = l.foldl (fun acc a => (g a).foldl f acc) b := by
  induction l generalizing b with
  | nil => rfl
  | cons x xs ih => simp [List.foldl_append, ih]

/-! ## Claim C8 — determinism of the pipeline -/

/-- C8.  For every tree and file path, two invocations of the full analyzer
pipeline on the same inputs produce identical `ComponentResult` documents.
In the embedding every analyzer is a pure function of the tree and the
threaded context, and each invocation starts from `createComponentContext`;
there is no cross-call state, so the two components of `analyzeTwice`
are the same value (and hence serialize byte-identically). -/
theorem treesift_pipeline_deterministic :
    ∀ (t : Node) (fp : String), (analyzeTwice t fp).1 = (analyzeTwice t fp).2 :=
  fun _ _ => rfl

/-! ## Claim C1 — the §8 Widget scenario -/

/-- C1 (counterexample).  On the §8 Widget source the pipeline does *not*
report `exportType = default`: the export classifier compares against the
hardcoded marker `"default: MyComponent"` (§4.3) and `Widget` is not
`MyComponent`, so the claimed conjunct `exportType = "default"` fails. -/
theorem treesift_C1_counterexample :
    (TreeSift.analyze widgetTree "Widget.tsx").exportType ≠ ExportType.default := by
  decide

/-- C1 (amended).  The §8 Widget scenario holds with `exportType = "named"`
in place of `"default"`: `name = "Widget"`, `type = FunctionDecl`, `props`
containing exactly the entry named `title`, a `div` element entry whose
attributes contain `{name: "className", value: "p-2"}`, and
`stylingLibrary.type = tailwindLike` with confidence strictly positive. -/
theorem treesift_C1_amended :
    (TreeSift.analyze widgetTree "Widget.tsx").name = "Widget" ∧
    (TreeSift.analyze widgetTree "Widget.tsx").type = CompType.FunctionDeclaration ∧
    (TreeSift.analyze widgetTree "Widget.tsx").exportType = ExportType.named ∧
    (TreeSift.analyze widgetTree "Widget.tsx").props =
      [⟨"title", "any", none, true, none⟩] ∧
    (TreeSift.analyze widgetTree "Widget.tsx").dependencies.components =
      [⟨"div", [⟨"className", some "p-2", false⟩], [⟨"expression", "title"⟩],
        [⟨"className", some "p-2"⟩]⟩] ∧
    (TreeSift.analyze widgetTree "Widget.tsx").stylingLibrary.type =
      StylingType.tailwind ∧
    0 < (TreeSift.analyze widgetTree "Widget.tsx").stylingLibrary.confidence :=
  ⟨rfl, rfl, rfl, rfl, rfl, rfl, by decide⟩

/-! ## Claim C6 — utility-import recording in pass 1 -/

/-- C6 (counterexample).  Pass 1 keys its test on the *imported* name, not
the local binding: `import { cn as myCn }` — local binding `myCn`, not a
canonical name — *is* recorded (`hasUtility = true`), while
`import { foo as cn }` — local binding `cn`, a canonical name — is *not*,
the exact opposite of the claim. -/
theorem treesift_C6_counterexample :
    (classNamesPass1 cnAliasedLocalTree).2.1 = true ∧
    canonicalUtils.contains "myCn" = false ∧
    (classNamesPass1 cnLocalIsCnTree).2.1 = false ∧
    canonicalUtils.contains "cn" = true :=
  ⟨rfl, rfl, rfl, rfl⟩


theorem cnImportStep_eq (acc : List (String × String) × Bool × String) (n : Node) :
    cnImportStep acc n = (utilImportsOfNode n).foldl cnInner acc := by
  cases n <;> try rfl
  rename_i source specs
  show specs.foldl _ acc = _
  unfold utilImportsOfNode
  rw [foldl_filterMap_eq]
  refine List.foldl_ext _ _ acc (fun a sp hmem => ?_)
  cases sp <;> try rfl
  rename_i imported lcl
  cases imported <;> try rfl
  cases lcl <;> try rfl
  rename_i i l
  by_cases h : i ∈ canonicalUtils <;> simp [h, cnInner, optStep]

theorem classNamesPass1_eq_foldl (t : Node) :
    classNamesPass1 t = (utilImports t).foldl cnInner ([], false, "") := by
  unfold classNamesPass1 utilImports
  rw [foldl_flatMap_eq]
  congr 1
  funext acc n
  exact cnImportStep_eq acc n

theorem cnInner_foldl_hasFlag (l : List (String × String))
    (acc : List (String × String) × Bool × String) :
    (l.foldl cnInner acc).2.1 = (acc.2.1 || !l.isEmpty) := by
  induction l generalizing acc with
  | nil => simp
  | cons x xs ih => simp [ih, cnInner]

theorem cnInner_foldl_source (l : List (String × String))
    (acc : List (String × String) × Bool × String) :
    (l.foldl cnInner acc).2.2 = ((l.getLast?.map (fun kv => kv.2)).getD acc.2.2) := by
  induction l generalizing acc with
  | nil => rfl
  | cons x xs ih =>
      cases xs with
      | nil => simp [cnInner]
      | cons y ys => simpa [cnInner] using ih (cnInner acc x)

theorem cnInner_foldl_map (l : List (String × String))
    (acc : List (String × String) × Bool × String) :
    (l.foldl cnInner acc).1 =
      l.foldl (fun m kv => utilMapSet m kv.1 kv.2) acc.1 := by
  induction l generalizing acc with
  | nil => rfl
  | cons x xs ih => simp [cnInner, ih]

/-- C6 (amended).  Pass 1 records a named import specifier (setting
`hasUtility = true` and `importSource` to that import's source, last match
winning) exactly when the specifier's *imported* name is one of the four
canonical utility names `cn`, `clsx`, `classnames`, `cx`; the *local*
binding name is what gets stored as the key of the binding → source map.
So `{ cn as myCn }` is recorded and `{ foo as cn }` is not. -/
theorem treesift_C6_amended (t : Node) :
    ((classNamesPass1 t).2.1 = true ↔ utilImports t ≠ []) ∧
    (classNamesPass1 t).2.2 =
      ((utilImports t).getLast?.map (fun kv => kv.2)).getD "" ∧
    (classNamesPass1 t).1 =
      (utilImports t).foldl (fun m kv => utilMapSet m kv.1 kv.2) [] := by
  rw [classNamesPass1_eq_foldl]
  refine ⟨?_, ?_, ?_⟩
  · rw [cnInner_foldl_hasFlag]
    cases utilImports t <;> simp
  · rw [cnInner_foldl_source]
  · rw [cnInner_foldl_map]

/-! ## Claim C3 — the cva round-trip and its scoring effect -/

theorem stylAnalyzeImports_cva (n : Node) (s : StylScores) :
    (stylAnalyzeImports n s).cva = s.cva := by
  cases n
  case importDecl source specs =>
    simp only [stylAnalyzeImports, addTailwind, addStyled, addEmotion]
    split_ifs <;> rfl
  all_goals rfl

theorem stylAnalyzeClassNames_cva (n : Node) (s : StylScores) :
    (stylAnalyzeClassNames n s).cva = s.cva := by
  unfold stylAnalyzeClassNames
  split <;> try rfl
  split_ifs <;> rfl

theorem stylAnalyzeStyled_cva (n : Node) (s : StylScores) :
    (stylAnalyzeStyled n s).cva = s.cva := by
  unfold stylAnalyzeStyled
  split <;> try rfl
  split_ifs <;> rfl

theorem stylAnalyzeEmotion_cva (n : Node) (s : StylScores) :
    (stylAnalyzeEmotion n s).cva = s.cva := by
  unfold stylAnalyzeEmotion
  split <;> rfl

theorem stylTraverseStep_cva (s : StylScores) (n : Node) :
    (stylTraverseStep s n).cva = s.cva := by
  unfold stylTraverseStep
  rw [stylAnalyzeEmotion_cva, stylAnalyzeStyled_cva, stylAnalyzeClassNames_cva,
    stylAnalyzeImports_cva]

theorem foldl_stylTraverseStep_cva (l : List Node) (s : StylScores) :
    (l.foldl stylTraverseStep s).cva = s.cva := by
  induction l generalizing s with
  | nil => rfl
  | cons n ns ih => rw [List.foldl_cons, ih, stylTraverseStep_cva]

theorem seedStep_cva_score (s : StylScores) (cfg : CvaConfig) :
    (seedStep s cfg).cva.score = s.cva.score := by
  unfold seedStep
  split_ifs <;> rfl

theorem foldl_seedStep_cva_score (l : List CvaConfig) (s : StylScores) :
    (l.foldl seedStep s).cva.score = s.cva.score := by
  induction l generalizing s with
  | nil => rfl
  | cons cfg cfgs ih => rw [List.foldl_cons, ih, seedStep_cva_score]

theorem seedScores_cva_score (cfgs : List CvaConfig) (h : cfgs ≠ []) :
    (seedScores cfgs).cva.score = 100 := by
  unfold seedScores
  rw [if_neg (by simpa using h)]
  rw [foldl_seedStep_cva_score]

/-- C3.  The §8 round-trip: (i) the reconstructed value of the cva call with
base `"px-4 py-2"`, the intent variants and the default variants satisfies
`variants.intent.primary = "bg-blue-500"`; (ii) a cva call that is the
initializer of a variable declarator is captured under the variable's name;
(iii) the presence of any captured config gives the variant-authoring
category a score of at least 100 (the traversal never touches it);
(iv) this config's seed contribution to the tailwind-like category is
exactly 50 (its reconstructed value contains `"bg-"`), and (v) that per-config
bonus is what the seed loop adds to the tailwind score. -/
theorem treesift_cva_roundtrip :
    jLookupChain (parseCvaConfig cvaButtonCall) ["variants", "intent", "primary"] =
      some (JValue.str "bg-blue-500") ∧
    cvaConfigsOf cvaButtonTree = [⟨"buttonVariants", parseCvaConfig cvaButtonCall⟩] ∧
    (∀ (t : Node) (cfgs : List CvaConfig), cfgs ≠ [] →
      100 ≤ (stylingScores t cfgs).cva.score) ∧
    (∀ vname : String, seedTailwindBonus ⟨vname, parseCvaConfig cvaButtonCall⟩ = 50) ∧
    (∀ cfg : CvaConfig,
      (seedScores [cfg]).tailwind.score = seedTailwindBonus cfg) := by
  refine ⟨rfl, rfl, ?_, fun vname => rfl, ?_⟩
  · intro t cfgs h
    unfold stylingScores
    rw [foldl_stylTraverseStep_cva, seedScores_cva_score cfgs h]
  · intro cfg
    show (List.foldl seedStep _ [cfg]).tailwind.score = _
    simp only [List.foldl_cons, List.foldl_nil]
    unfold seedTailwindBonus seedStep
    split_ifs <;> rfl

/-- C3 witness: the theorem applied to the concrete captured config list of
`cvaButtonTree`, whose non-emptiness is discharged by evaluation. -/
theorem treesift_cva_roundtrip_witness :
    100 ≤ (stylingScores cvaButtonTree (cvaConfigsOf cvaButtonTree)).cva.score :=
  treesift_cva_roundtrip.2.2.1 cvaButtonTree (cvaConfigsOf cvaButtonTree)
    (fun h => absurd (congrArg List.length h) (by decide))

/-! ## Claim C4 — name-keyed collapsing of repeated elements -/

theorem keyCount_cons (k0 : String) (v0 : JSXElementInfo)
    (m : List (String × JSXElementInfo)) (k : String) :
    keyCount ((k0, v0) :: m) k = (if k0 = k then 1 else 0) + keyCount m k := by
  by_cases h : k0 = k <;> simp [keyCount, List.filter_cons, h, Nat.add_comm]

theorem mapFind_jsxMapSet_self (m : List (String × JSXElementInfo)) (k : String)
    (v : JSXElementInfo) : mapFind (jsxMapSet m k v) k = some v := by
  induction m with
  | nil => simp [jsxMapSet, mapFind]
  | cons kv rest ih =>
      cases kv with
      | mk k0 v0 =>
          by_cases h : k0 = k
          · subst h
            simp [jsxMapSet, mapFind]
          · simp [jsxMapSet, mapFind, h, ih]

theorem mapFind_jsxMapSet_other (m : List (String × JSXElementInfo))
    (k k' : String) (v : JSXElementInfo) (h : k ≠ k') :
    mapFind (jsxMapSet m k' v) k = mapFind m k := by
  have h' : ¬(k' = k) := Ne.symm h
  induction m with
  | nil => simp [jsxMapSet, mapFind, h']
  | cons kv rest ih =>
      cases kv with
      | mk k0 v0 =>
          by_cases hk : k0 = k'
          · subst hk
            simp [jsxMapSet, mapFind, h']
          · simp [jsxMapSet, mapFind, hk, ih]

theorem keyCount_jsxMapSet_self (m : List (String × JSXElementInfo)) (k : String)
    (v : JSXElementInfo) : keyCount (jsxMapSet m k v) k = max 1 (keyCount m k) := by
  induction m with
  | nil =>
      show keyCount [(k, v)] k = _
      rw [keyCount_cons]
      simp [keyCount]
  | cons kv rest ih =>
      cases kv with
      | mk k0 v0 =>
          by_cases h : k0 = k
          · subst h
            simp only [jsxMapSet, eq_self_iff_true, ite_true]
            rw [keyCount_cons, keyCount_cons]
            simp
          · simp only [jsxMapSet, if_neg h]
            rw [keyCount_cons, keyCount_cons, ih]
            simp [h]

theorem keyCount_jsxMapSet_other (m : List (String × JSXElementInfo))
    (k k' : String) (v : JSXElementInfo) (h : k ≠ k') :
    keyCount (jsxMapSet m k' v) k = keyCount m k := by
  have h' : ¬(k' = k) := Ne.symm h
  induction m with
  | nil =>
      show keyCount [(k', v)] k = _
      rw [keyCount_cons]
      simp [keyCount, h']
  | cons kv rest ih =>
      cases kv with
      | mk k0 v0 =>
          by_cases hk : k0 = k'
          · subst hk
            simp only [jsxMapSet, eq_self_iff_true, ite_true]
            rw [keyCount_cons, keyCount_cons]
          · simp only [jsxMapSet, if_neg hk]
            rw [keyCount_cons, keyCount_cons, ih]

theorem buildJsxMap_find (l : List JSXElementInfo) (k : String)
    (m : List (String × JSXElementInfo)) :
    mapFind (buildJsxMap l m) k =
      match (l.filter (fun i => i.name == k)).getLast? with
      | some i => some i
      | none => mapFind m k := by
  induction l generalizing m with
  | nil => simp [buildJsxMap]
  | cons i rest ih =>
      show mapFind (buildJsxMap rest (jsxMapSet m i.name i)) k = _
      by_cases h : i.name = k
      · subst h
        rw [ih]
        cases hfr : rest.filter (fun j => j.name == i.name) with
        | nil => simp [List.filter_cons, hfr, mapFind_jsxMapSet_self m i.name i]
        | cons j js =>
            have hs : ((j :: js).getLast?).isSome := by simp
            obtain ⟨w, hw⟩ := Option.isSome_iff_exists.mp hs
            simp [List.filter_cons, hfr, List.getLast?_cons_cons, hw]
      · rw [ih, mapFind_jsxMapSet_other m k i.name i (Ne.symm h)]
        simp [List.filter_cons, h]

theorem buildJsxMap_count (l : List JSXElementInfo) (k : String)
    (m : List (String × JSXElementInfo)) :
    keyCount (buildJsxMap l m) k =
      if (l.filter (fun i => i.name == k)).isEmpty then keyCount m k
      else max 1 (keyCount m k) := by
  induction l generalizing m with
  | nil => simp [buildJsxMap]
  | cons i rest ih =>
      show keyCount (buildJsxMap rest (jsxMapSet m i.name i)) k = _
      by_cases h : i.name = k
      · subst h
        rw [ih, keyCount_jsxMapSet_self]
        by_cases hfr : (rest.filter (fun j => j.name == i.name)).isEmpty
        · simp [List.filter_cons, hfr]
        · simp [List.filter_cons, hfr]
      · rw [ih, keyCount_jsxMapSet_other m k i.name i (Ne.symm h)]
        simp [List.filter_cons, h]

/-- C4.  If the tree's markup elements named `Row`, in traversal order, are
exactly two occurrences `a` then `b`, the collected name-keyed element map
has exactly one entry keyed `"Row"`, and its value is the element info of
the second (later-visited) occurrence `b` — not a merge of both. -/
theorem treesift_jsx_collapse (t : Node) (a b : JSXElementInfo)
    (h : (jsxInfos t).filter (fun i => i.name == "Row") = [a, b]) :
    mapFind (jsxMap t) "Row" = some b ∧ keyCount (jsxMap t) "Row" = 1 := by
  have hm : jsxMap t = buildJsxMap (jsxInfos t) [] := rfl
  constructor
  · rw [hm, buildJsxMap_find, h]
    rfl
  · rw [hm, buildJsxMap_count, h]
    rfl

/-- C4 witness: two sibling `<Row/>` elements with different attributes;
the map keeps exactly the second one. -/
theorem treesift_jsx_collapse_witness :
    mapFind (jsxMap rowSiblingsTree) "Row" =
      some ⟨"Row", [⟨"b", some "2", false⟩], [], []⟩ ∧
    keyCount (jsxMap rowSiblingsTree) "Row" = 1 :=
  treesift_jsx_collapse rowSiblingsTree
    ⟨"Row", [⟨"a", some "1", false⟩], [], []⟩
    ⟨"Row", [⟨"b", some "2", false⟩], [], []⟩
    (by decide)

/-! ## Claim C2 — the hardcoded default-export marker -/

theorem string_append_left_cancel {a b c : String} (h : a ++ b = a ++ c) :
    b = c := by
  have hd := congrArg String.data h
  simp only [String.data_append] at hd
  exact String.ext (List.append_cancel_left hd)

/-- C2.  The export classifier sets `exportType = default` if and only if
the collected export set contains the hardcoded marker string
`"default: MyComponent"`; consequently, whenever every default-export marker
carries a name other than `MyComponent` (and no named export happens to be
the literal string `"default: MyComponent"`, which no valid JavaScript
identifier can be), the classifier reports `named`. -/
theorem treesift_export_marker (t : Node) (c : ComponentContext) :
    ((ExportAnalyzer.analyze t c).exportType = ExportType.default ↔
      "default: MyComponent" ∈ exportsList t) ∧
    ((∀ nm, ExportEntry.named nm ∈ exportEntries t → nm ≠ "default: MyComponent") →
     (∀ nm, ExportEntry.defaultMarker nm ∈ exportEntries t → nm ≠ "MyComponent") →
     (ExportAnalyzer.analyze t c).exportType = ExportType.named) := by
  constructor
  · by_cases hc : "default: MyComponent" ∈ exportsList t <;>
      simp [ExportAnalyzer.analyze, hc]
  · intro h1 h2
    have hnm : "default: MyComponent" ∉ exportsList t := by
      intro hmem
      obtain ⟨e, he, hre⟩ := List.mem_map.mp hmem
      cases e with
      | named nm => exact h1 nm he hre
      | defaultMarker nm =>
          refine h2 nm he ?_
          have h3 : "default: " ++ nm = "default: " ++ "MyComponent" := by
            rw [show renderExportEntry (.defaultMarker nm) = "default: " ++ nm
              from rfl] at hre
            rw [hre]
            rfl
          exact string_append_left_cancel h3
    simp [ExportAnalyzer.analyze, hnm]

/-- C2 witness: `export default MyWidget;` — the only marker's name is
`MyWidget`, so the result is `named`. -/
theorem treesift_export_marker_witness :
    (ExportAnalyzer.analyze defaultOtherNameTree
      (createComponentContext "f.tsx")).exportType = ExportType.named :=
  (treesift_export_marker defaultOtherNameTree
      (createComponentContext "f.tsx")).2
    (fun nm hmem => by
      simp [show exportEntries defaultOtherNameTree =
        [ExportEntry.defaultMarker "MyWidget"] from rfl] at hmem)
    (fun nm hmem => by
      simp [show exportEntries defaultOtherNameTree =
        [ExportEntry.defaultMarker "MyWidget"] from rfl] at hmem
      subst hmem
      decide)

/-! ## Claim C5 — forwardRef resolution of a default-exported identifier -/



theorem cnPass1Step_eq (s : String × CompType × Bool) (n : Node) :
    cnPass1Step s n = optStep dexpStep s (exportDefaultOf n) := by
  cases n <;> try rfl
  rename_i d
  cases d <;> try rfl
  rename_i id p b
  cases id <;> rfl

theorem pass1_eq_foldl (t : Node) :
    (Node.preorder t).foldl cnPass1Step ("Unknown", .Unknown, false) =
      (defaultExportDecls t).foldl dexpStep ("Unknown", .Unknown, false) := by
  unfold defaultExportDecls
  rw [foldl_filterMap_eq]
  exact List.foldl_ext _ _ _ (fun s n _ => cnPass1Step_eq s n)

theorem pass2_stable (l : List Node) (name : String) (ty : CompType)
    (h : ty ≠ .Unknown) :
    l.foldl (cnPass2Step true) (name, ty) = (name, ty) := by
  induction l with
  | nil => rfl
  | cons n rest ih =>
      rw [List.foldl_cons,
        show cnPass2Step true (name, ty) n = (name, ty) from by
          simp [cnPass2Step, h]]
      exact ih

theorem pass2_head (l : List Node) (name : String)
    (h : (l.filterMap (fun n => analyzeComponentDeclaration n name)).head? =
      some .ForwardRefComponent) :
    l.foldl (cnPass2Step true) (name, .Unknown) =
      (name, .ForwardRefComponent) := by
  induction l with
  | nil => exact absurd h (by simp)
  | cons n rest ih =>
      rw [List.foldl_cons]
      cases hn : analyzeComponentDeclaration n name with
      | none =>
          have h' := h
          rw [List.filterMap_cons, hn] at h'
          rw [show cnPass2Step true (name, .Unknown) n = (name, .Unknown) from by
            simp [cnPass2Step, hn]]
          exact ih h'
      | some ty =>
          have hty : ty = .ForwardRefComponent := by
            have h' := h
            rw [List.filterMap_cons, hn] at h'
            simpa using h'
          subst hty
          rw [show cnPass2Step true (name, .Unknown) n =
            (name, .ForwardRefComponent) from by simp [cnPass2Step, hn]]
          exact pass2_stable rest name _ (by decide)

/-- C5.  If the tree's only default export is a bare identifier, and the
first declaration matching that name (as classified by
`analyzeComponentDeclaration`) is a variable whose initializer is a
`forwardRef` call — the only way `analyzeComponentDeclaration` produces
`ForwardRefComponent` — then the component identifier reports that name with
type `ForwardRefComponent`.  Moreover a call to a bare identifier
`forwardRef`, or to the member access `React.forwardRef`, is recognized by
`isForwardRefCall` for any arguments. -/
theorem treesift_forwardref (t : Node) (name : String)
    (h1 : defaultExportDecls t = [Node.identifier name])
    (h2 : (componentDeclMatches t name).head? = some CompType.ForwardRefComponent) :
    detectComponentInfo t = (name, CompType.ForwardRefComponent) ∧
    (∀ (loc : Option (Nat × Nat)) (args : List Node),
      isForwardRefCall (Node.callExpression loc (.identifier "forwardRef") args) =
        true) ∧
    (∀ (loc : Option (Nat × Nat)) (args : List Node),
      isForwardRefCall (Node.callExpression loc
        (.memberExpression (.identifier "React") (.identifier "forwardRef")) args) =
        true) := by
  refine ⟨?_, fun loc args => rfl, fun loc args => rfl⟩
  unfold detectComponentInfo
  rw [pass1_eq_foldl, h1]
  exact pass2_head (Node.preorder t) name h2

/-- C5 witness: `const Fancy = forwardRef(...); export default Fancy;`. -/
theorem treesift_forwardref_witness :
    detectComponentInfo fancyForwardRefTree = ("Fancy", CompType.ForwardRefComponent) :=
  (treesift_forwardref fancyForwardRefTree "Fancy" rfl rfl).1

/-! ## Claim C7 — the classifier's final decision -/

theorem stylAnalyzeImports_unknown (n : Node) (s : StylScores) :
    (stylAnalyzeImports n s).unknown = s.unknown := by
  cases n
  case importDecl source specs =>
    simp only [stylAnalyzeImports, addTailwind, addStyled, addEmotion]
    split_ifs <;> rfl
  all_goals rfl

theorem stylAnalyzeClassNames_unknown (n : Node) (s : StylScores) :
    (stylAnalyzeClassNames n s).unknown = s.unknown := by
  unfold stylAnalyzeClassNames
  split <;> try rfl
  split_ifs <;> rfl

theorem stylAnalyzeStyled_unknown (n : Node) (s : StylScores) :
    (stylAnalyzeStyled n s).unknown = s.unknown := by
  unfold stylAnalyzeStyled
  split <;> try rfl
  split_ifs <;> rfl

theorem stylAnalyzeEmotion_unknown (n : Node) (s : StylScores) :
    (stylAnalyzeEmotion n s).unknown = s.unknown := by
  unfold stylAnalyzeEmotion
  split <;> rfl

theorem stylTraverseStep_unknown (s : StylScores) (n : Node) :
    (stylTraverseStep s n).unknown = s.unknown := by
  unfold stylTraverseStep
  rw [stylAnalyzeEmotion_unknown, stylAnalyzeStyled_unknown,
    stylAnalyzeClassNames_unknown, stylAnalyzeImports_unknown]

theorem foldl_stylTraverseStep_unknown (l : List Node) (s : StylScores) :
    (l.foldl stylTraverseStep s).unknown = s.unknown := by
  induction l generalizing s with
  | nil => rfl
  | cons n ns ih => rw [List.foldl_cons, ih, stylTraverseStep_unknown]

theorem seedStep_unknown (s : StylScores) (cfg : CvaConfig) :
    (seedStep s cfg).unknown = s.unknown := by
  unfold seedStep
  split_ifs <;> rfl

theorem foldl_seedStep_unknown (l : List CvaConfig) (s : StylScores) :
    (l.foldl seedStep s).unknown = s.unknown := by
  induction l generalizing s with
  | nil => rfl
  | cons cfg cfgs ih => rw [List.foldl_cons, ih, seedStep_unknown]

theorem stylingScores_unknown (t : Node) (cfgs : List CvaConfig) :
    (stylingScores t cfgs).unknown = ⟨0, []⟩ := by
  unfold stylingScores seedScores
  rw [foldl_stylTraverseStep_unknown]
  split_ifs <;> simp [foldl_seedStep_unknown, zeroScores]

theorem calculateConfidence_type (s : StylScores) :
    (calculateConfidence s).1 = (confLoop s).2.1 := by
  by_cases h : (confLoop s).2.1 = StylingType.unknown
  · simp [calculateConfidence, h]
  · simp only [calculateConfidence, h, if_neg h]
    split_ifs <;> first | rfl | contradiction

theorem confLoop_proj (tys : List StylingType) (s : StylScores)
    (st : Nat × StylingType × Option StylingType × Nat) :
    ((tys.foldl (confStep s) st).1, (tys.foldl (confStep s) st).2.1) =
      tys.foldl (bestStep s) (st.1, st.2.1) := by
  induction tys generalizing st with
  | nil => rfl
  | cons ty rest ih =>
      simp only [List.foldl_cons]
      rw [ih]
      by_cases h : (scoreOf s ty).score > st.1
      · simp [confStep, bestStep, h]
      · by_cases h2 : (scoreOf s ty).score > st.2.2.2 <;>
          simp [confStep, bestStep, h, h2]

theorem confLoop_winner (s : StylScores) (hun : s.unknown.score = 0)
    (hmax : specMaxScore s ≠ 0) :
    (confLoop s).2.1 = specStylingWinner s := by
  have hproj := confLoop_proj stylOrder s (0, .unknown, none, 0)
  have h2 : (confLoop s).2.1 =
      (stylOrder.foldl (bestStep s) (0, StylingType.unknown)).2 :=
    congrArg Prod.snd hproj
  rw [h2]
  obtain ⟨⟨a, ia⟩, ⟨b, ib⟩, ⟨c, ic⟩, ⟨d, idc⟩, ⟨u, iu⟩⟩ := s
  have hu : u = 0 := hun
  subst hu
  unfold specMaxScore at hmax
  unfold stylOrder specStylingWinner specMaxScore bestStep scoreOf
  rw [List.foldl_cons, List.foldl_cons, List.foldl_cons, List.foldl_cons,
    List.foldl_cons, List.foldl_nil]
  dsimp only at hmax ⊢
  split_ifs <;> first | rfl | omega

theorem confLoop_all_zero (s : StylScores)
    (ht : s.tailwind.score = 0) (hs : s.styledComponents.score = 0)
    (he : s.emotion.score = 0) (hc : s.cva.score = 0)
    (hu : s.unknown.score = 0) :
    confLoop s = (0, .unknown, none, 0) := by
  unfold confLoop stylOrder
  rw [List.foldl_cons, List.foldl_cons, List.foldl_cons, List.foldl_cons,
    List.foldl_cons, List.foldl_nil]
  simp [confStep, scoreOf, ht, hs, he, hc, hu]

/-- C7.  The classifier's final decision picks the category with the highest
accumulated score, ties resolving to the first category in the declaration
order tailwind, styled-components, emotion, variant-authoring, unknown
(`specStylingWinner` renders the spec's words); and when the maximum score
over all categories is 0 the stored result is exactly
`{type: unknown, confidence: 0, indicators: []}`. -/
theorem treesift_styling_decision (t : Node) (c : ComponentContext) :
    (specMaxScore (stylingScores t c.cvaConfigs) = 0 →
      (StylingLibraryAnalyzer.analyze t c).stylingLibrary =
        ⟨StylingType.unknown, 0, []⟩) ∧
    (specMaxScore (stylingScores t c.cvaConfigs) ≠ 0 →
      (StylingLibraryAnalyzer.analyze t c).stylingLibrary.type =
        specStylingWinner (stylingScores t c.cvaConfigs)) := by
  have hu := stylingScores_unknown t c.cvaConfigs
  constructor
  · intro h0
    have h4 := h0
    unfold specMaxScore at h4
    simp only [Nat.max_eq_zero_iff] at h4
    obtain ⟨⟨⟨⟨ht, hsc⟩, he⟩, hc4⟩, _⟩ := h4
    have hzero := confLoop_all_zero (stylingScores t c.cvaConfigs) ht hsc he hc4
      (by rw [hu])
    show (let s := stylingScores t c.cvaConfigs
          let r := calculateConfidence s
          ({ c with stylingLibrary := ⟨r.1, r.2.1, (scoreOf r.2.2 r.1).indicators⟩ }
            : ComponentContext)).stylingLibrary = _
    simp only [calculateConfidence, hzero]
    simp [scoreOf, hu]
  · intro hmax
    have h1 : (StylingLibraryAnalyzer.analyze t c).stylingLibrary.type =
        (calculateConfidence (stylingScores t c.cvaConfigs)).1 := rfl
    rw [h1, calculateConfidence_type]
    exact confLoop_winner _ (by rw [hu]) hmax

/-- C7 witness: on the empty tree everything scores 0 and the result is the
unknown record; on the Widget tree the maximum is positive and the detected
type is the spec-side winner. -/
theorem treesift_styling_decision_witness :
    (StylingLibraryAnalyzer.analyze emptyTree
      (createComponentContext "a.tsx")).stylingLibrary =
        ⟨StylingType.unknown, 0, []⟩ ∧
    (StylingLibraryAnalyzer.analyze widgetTree
      (createComponentContext "w.tsx")).stylingLibrary.type =
        specStylingWinner (stylingScores widgetTree []) :=
  ⟨(treesift_styling_decision emptyTree (createComponentContext "a.tsx")).1
      (by decide),
   (treesift_styling_decision widgetTree (createComponentContext "w.tsx")).2
      (by decide)⟩

/-! ## Claim C10 — import recorded, no call sites -/

theorem preorder_closed :
    (∀ t : Node, ∀ n ∈ Node.preorder t, ∀ m ∈ Node.preorder n,
      m ∈ Node.preorder t) ∧
    ((∀ os : List (Option Node), ∀ n ∈ Node.preorderOptList os,
       ∀ m ∈ Node.preorder n, m ∈ Node.preorderOptList os) ∧
     ((∀ o : Option Node, ∀ n ∈ Node.preorderOpt o, ∀ m ∈ Node.preorder n,
        m ∈ Node.preorderOpt o) ∧
      (∀ l : List Node, ∀ n ∈ Node.preorderList l, ∀ m ∈ Node.preorder n,
        m ∈ Node.preorderList l))) := by
  apply Node.preorder.mutual_induct
  all_goals intros
  all_goals rename_i n hn m hm
  all_goals simp only [Node.preorder, Node.preorderList, Node.preorderOpt,
    Node.preorderOptList, List.mem_cons, List.mem_append, List.not_mem_nil] at hn
  all_goals first
    | exact hn.elim
    | (rcases hn with rfl | hn
       · exact hm
       · first
          | exact hn.elim
          | (simp only [Node.preorder, Node.preorderList, Node.preorderOpt,
               Node.preorderOptList, List.mem_cons, List.mem_append]
             (try casesm* _ ∨ _) <;>
               solve_by_elim [Or.inl, Or.inr, fun h => Or.inr (Or.inr h),
                 fun h => Or.inr (Or.inr (Or.inr h))]))
    | (simp only [Node.preorder, Node.preorderList, Node.preorderOpt,
         Node.preorderOptList, List.mem_cons, List.mem_append]
       (try casesm* _ ∨ _) <;>
         solve_by_elim [Or.inl, Or.inr, fun h => Or.inr (Or.inr h),
           fun h => Or.inr (Or.inr (Or.inr h))])

theorem mem_preorder_trans (t n : Node) (hn : n ∈ Node.preorder t)
    (m : Node) (hm : m ∈ Node.preorder n) : m ∈ Node.preorder t :=
  preorder_closed.1 t n hn m hm

theorem self_mem_preorder (n : Node) : n ∈ Node.preorder n := by
  cases n <;> simp [Node.preorder]

theorem flatMap_nil_of {α β : Type _} (l : List α) (f : α → List β)
    (h : ∀ x ∈ l, f x = []) : l.flatMap f = [] := by
  induction l with
  | nil => rfl
  | cons x xs ih =>
      simp only [List.flatMap_cons, h x (List.mem_cons_self x xs)]
      exact ih (fun y hy => h y (List.mem_cons_of_mem x hy))

/-- C10.  If the tree records at least one canonical utility import but
contains no call expression whose callee is a canonical name or a recorded
local binding, the analyzer reports `hasClassNames = true` with
`importSource` the last matching import's source, while the derived legacy
view has `importName = null` and an empty `usages` sequence. -/
theorem treesift_import_no_calls (t : Node) (c : ComponentContext)
    (h1 : utilImports t ≠ [])
    (h2 : ∀ n ∈ Node.preorder t, isMatchingCNCall (classNamesPass1 t).1 n = false) :
    (ClassNamesAnalyzer.analyze t c).classNamesUsage.hasClassNames = true ∧
    (ClassNamesAnalyzer.analyze t c).classNamesUsage.importSource =
      ((utilImports t).getLast?.map (fun kv => kv.2)).getD "" ∧
    (ClassNamesAnalyzer.analyze t c).classNames.importName = none ∧
    (ClassNamesAnalyzer.analyze t c).classNames.usages = [] := by
  have hflag : (classNamesPass1 t).2.1 = true := by
    rw [classNamesPass1_eq_foldl, cnInner_foldl_hasFlag]
    cases hu : utilImports t with
    | nil => exact absurd hu h1
    | cons x xs => rfl
  have hsrc : (classNamesPass1 t).2.2 =
      ((utilImports t).getLast?.map (fun kv => kv.2)).getD "" := by
    rw [classNamesPass1_eq_foldl, cnInner_foldl_source]
  have husages : cnUsages t (classNamesPass1 t).1 = [] := by
    refine flatMap_nil_of _ _ (fun n hn => ?_)
    cases n with
    | callExpression loc callee args =>
        cases callee <;> try rfl
        rename_i nm
        have := h2 _ hn
        simp only [isMatchingCNCall] at this
        simp [cnUsagesOfNode, this]
    | jsxAttribute loc nameN valueO =>
        cases nameN <;> try rfl
        cases valueO with
        | none => rfl
        | some v =>
            cases v <;> try rfl
            rename_i ve
            cases ve <;> try rfl
            rename_i loc2 callee2 args2
            cases callee2 <;> try rfl
            rename_i cnm
            have hmem : Node.callExpression loc2 (.identifier cnm) args2 ∈
                Node.preorder t := by
              refine mem_preorder_trans t _ hn _ ?_
              simp [Node.preorder, Node.preorderOpt, self_mem_preorder]
            have := h2 _ hmem
            simp only [isMatchingCNCall] at this
            simp [cnUsagesOfNode, this]
    | _ => rfl
  refine ⟨?_, ?_, ?_, ?_⟩ <;>
    simp [ClassNamesAnalyzer.analyze, husages, hflag, hsrc]

/-- C10 witness: `import { cn } from "clsx"` and nothing else. -/
theorem treesift_import_no_calls_witness :
    (ClassNamesAnalyzer.analyze cnImportOnlyTree
        (createComponentContext "f.tsx")).classNamesUsage.hasClassNames = true ∧
    (ClassNamesAnalyzer.analyze cnImportOnlyTree
        (createComponentContext "f.tsx")).classNamesUsage.importSource =
      ((utilImports cnImportOnlyTree).getLast?.map (fun kv => kv.2)).getD "" ∧
    (ClassNamesAnalyzer.analyze cnImportOnlyTree
        (createComponentContext "f.tsx")).classNames.importName = none ∧
    (ClassNamesAnalyzer.analyze cnImportOnlyTree
        (createComponentContext "f.tsx")).classNames.usages = [] :=
  treesift_import_no_calls cnImportOnlyTree (createComponentContext "f.tsx")
    (fun h => absurd (congrArg List.length h) (by decide))
    (by decide)

/-! ## Claim C9 — reordering analyzers -/

/-- C9 (counterexample).  Swapping the pair (index 0: component identifier,
index 8: styling classifier) — which is *not* the excluded pair
(variant-config analyzer, styling classifier) — changes the result on a tree
with one cva config: the classifier then runs before the variant-config
analyzer and sees an empty `cvaConfigs`. -/
theorem treesift_C9_counterexample :
    (runAnalyzers (swapList 0 8 analyzerList) cvaButtonTree
        "f.tsx").stylingLibrary.type ≠
      (TreeSift.analyze cvaButtonTree "f.tsx").stylingLibrary.type := by
  decide

/-- C9 (amended).  Swapping two analyzers of the pipeline produces the same
`ComponentResult` as the fixed order exactly when the swap leaves the
variant-config analyzer (index 6) running before the styling classifier
(index 8): with the nine analyzers this means any pair not involving index
8, plus the pair (7, 8).  Each analyzer writes only its own fields, and the
styling classifier is the only analyzer reading another's output
(`cvaConfigs`), so all such swaps commute. -/
theorem treesift_swap_analyzers (t : Node) (fp : String) (i j : Nat)
    (hi : i < 9) (hj : j < 9) (hne : i ≠ j)
    (hcond : (i ≠ 8 ∧ j ≠ 8) ∨ (i = 7 ∧ j = 8) ∨ (i = 8 ∧ j = 7)) :
    runAnalyzers (swapList i j analyzerList) t fp = TreeSift.analyze t fp := by
  interval_cases i <;> interval_cases j <;> first | omega | rfl

/-- C9 witness: swapping the prop collector (index 2) and the class-name
analyzer (index 7) leaves the Widget result unchanged. -/
theorem treesift_swap_analyzers_witness :
    runAnalyzers (swapList 2 7 analyzerList) widgetTree "Widget.tsx" =
      TreeSift.analyze widgetTree "Widget.tsx" :=
  treesift_swap_analyzers widgetTree "Widget.tsx" 2 7 (by decide) (by decide)
    (by decide) (Or.inl (by decide))
